import Mathlib

/-!
Verification development for the graph-to-prompt compiler and backend event
client of ComfyBox_ReOpened (src/src/routes/+page.ts).

The TypeScript source is shallowly embedded: graphs, nodes and links become
Lean structures; JavaScript objects become association lists; promise chains
become `Except` values (an `Except.error` models a rejected promise); the
try/catch around the websocket message handler becomes an empty event list.
JavaScript `while` loops that walk pointer chains are embedded with explicit
fuel; termination of the upstream locator is then a theorem (fuel
stabilisation) rather than an assumption.
-/

/-- JavaScript/JSON values, as far as the serializer and API layer touch them.
`jsUndefined` models the `undefined` produced by a missing-property access. -/
inductive JVal where
  | null : JVal
  | jsUndefined : JVal
  | bool : Bool → JVal
  | num : Int → JVal
  | str : String → JVal
  | arr : List JVal → JVal
  | obj : List (String × JVal) → JVal

/-- Lookup in a JavaScript-object-as-association-list: the first binding for
the key wins (objects built below never hold duplicate keys). -/
def objGet {α : Type} (o : List (String × α)) (k : String) : Option α :=
  (o.find? (fun p => p.1 == k)).map (·.2)

/-- Assignment `o[k] = v` on a JavaScript object: replaces the existing
binding in place, otherwise appends (preserving JS insertion order). -/
def objSet {α : Type} (o : List (String × α)) (k : String) (v : α) : List (String × α) :=
  if (o.find? (fun p => p.1 == k)).isSome then
    o.map (fun p => if p.1 == k then (k, v) else p)
  else
    o ++ [(k, v)]

mutual

/-- JavaScript `ToString` on a value, used when a value is coerced to a
property key (`output[v[0]]` in the pruning pass). -/
def jsToString : JVal → String
  | .null => "null"
  | .jsUndefined => "undefined"
  | .bool b => if b then "true" else "false"
  | .num n => toString n
  | .str s => s
  | .arr xs => String.intercalate "," (jsToStringElems xs)
  | .obj _ => "[object Object]"

/-- Array elements are joined with commas; `null`/`undefined` elements become
the empty string (JavaScript `Array.prototype.toString`). -/
def jsToStringElems : List JVal → List String
  | [] => []
  | .null :: xs => "" :: jsToStringElems xs
  | .jsUndefined :: xs => "" :: jsToStringElems xs
  | x :: xs => jsToString x :: jsToStringElems xs

end

/-! ## Graph data model

Embedding of the litegraph structures the compiler reads: nodes carry a mode,
optional `properties.tags`, input slots and a role.  A world is the tree of
graphs (a root graph plus the inner graphs of its Subgraph nodes); `graphId`
is the back-pointer `node.graph`, and `subgraphNodeRef` is the back-pointer
`graph._subgraph_node` (the Subgraph node of the parent graph owning this
graph).  `graph._is_subgraph` is `subgraphNodeRef.isSome`. -/

/-- litegraph `NodeMode.ALWAYS`; any other mode (muted = `NEVER`, bypassed,
event-driven) is "not always active". -/
def NodeMode.ALWAYS : Nat := 0

/-- litegraph `NodeMode.NEVER` (muted). -/
def NodeMode.NEVER : Nat := 2

/-- A directed edge between slots, with the data value last computed by the
frontend evaluation pass (`runStep`). -/
structure LLink where
  id : Nat
  origin_id : Nat
  origin_slot : Nat
  target_id : Nat
  target_slot : Nat
  data : JVal

/-- `IComfyInputSlot` extras: the `config` object (with its optional
`defaultValue`) and the `serialize` flag.  A slot whose `comfy` field is
`none` models a plain litegraph slot (`"config" in inp` is false). -/
structure ComfySlotInfo where
  defaultValue : Option JVal
  serialize : Bool

/-- An input slot: name, the id of the attached link (if any), and the
optional ComfyBox slot information. -/
structure InputSlot where
  name : String
  link : Option Nat
  comfy : Option ComfySlotInfo

/-- Structural role of a node, probed in the source via `node.is(Reroute)`,
`node.is(Subgraph)`, `isBackendNode`, `"getUpstreamLink" in node`, etc.
`frontendCustom` models a frontend node type exposing its own
`getUpstreamLink` accessor returning the link with the given id (or null). -/
inductive NodeKind where
  | backend : NodeKind
  | frontend : NodeKind
  | frontendCustom : Option Nat → NodeKind
  | reroute : NodeKind
  | graphInput : String → NodeKind
  | graphOutput : String → NodeKind
  | subgraph : Nat → NodeKind

/-- A graph node.  `tags` is `node.properties.tags` (absent when `none`);
`graphId` is the owning graph (`node.graph`). -/
structure Node where
  id : Nat
  graphId : Nat
  mode : Nat
  tags : Option (List String)
  inputs : List InputSlot
  kind : NodeKind
  comfyClass : String

/-- A graph: nodes, links, and the `_subgraph_node` back-pointer
`(parentGraphId, subgraphNodeId)` when this graph is nested. -/
structure LGraph where
  id : Nat
  nodes : List Node
  links : List LLink
  subgraphNodeRef : Option (Nat × Nat)

/-- The tree of graphs reachable from the root. -/
structure World where
  graphs : List LGraph

def getGraph (w : World) (gid : Nat) : Option LGraph :=
  w.graphs.find? (fun g => g.id == gid)

def getNodeById (w : World) (gid : Nat) (nid : Nat) : Option Node :=
  (getGraph w gid).bind (fun g => g.nodes.find? (fun n => n.id == nid))

def getLinkById (w : World) (gid : Nat) (lid : Nat) : Option LLink :=
  (getGraph w gid).bind (fun g => g.links.find? (fun l => l.id == lid))

/-- `node.getInputLink(i)`: the link attached to input slot `i`, resolved in
the node's graph. -/
def getInputLink (w : World) (n : Node) (i : Nat) : Option LLink :=
  ((n.inputs.get? i).bind (fun s => s.link)).bind (getLinkById w n.graphId)

/-- `node.getInputNode(i)`: the origin node of the link on input slot `i`. -/
def getInputNode (w : World) (n : Node) (i : Nat) : Option Node :=
  (getInputLink w n i).bind (fun l => getNodeById w n.graphId l.origin_id)

def Node.isBackendNode (n : Node) : Bool :=
  match n.kind with
  | .backend => true
  | _ => false

/-- `node.is(Reroute) || node.is(ComfyReroute)`. -/
def isReroute (n : Node) : Bool :=
  match n.kind with
  | .reroute => true
  | _ => false

/-- `node.is(GraphInput) || node.is(GraphOutput)`. -/
def isGraphInputOutput (n : Node) : Bool :=
  match n.kind with
  | .graphInput _ => true
  | .graphOutput _ => true
  | _ => false

/-- `graph._subgraph_node`, resolved through the back-pointer. -/
def subgraphNodeOfGraph (w : World) (gid : Nat) : Option Node :=
  (getGraph w gid).bind (fun g =>
    g.subgraphNodeRef.bind (fun r => getNodeById w r.1 r.2))

/-- `node.graph._is_subgraph`. -/
def graphIsSubgraph (w : World) (gid : Nat) : Bool :=
  match getGraph w gid with
  | some g => g.subgraphNodeRef.isSome
  | none => false

/-! ## Tag filtering and activity (`nodeHasTag`, `isActiveNode`,
`isActiveBackendNode`) -/

/-- The body of the `while` loop in `nodeHasTag`: check the node's own
`properties.tags`, then (when `checkParents`) advance to
`node.graph?._subgraph_node`.  Fuel bounds the pointer walk; graph nesting is
a tree (spec data-model invariant), so the real loop visits each graph at
most once and `w.graphs.length + 1` fuel is exact. -/
def nodeHasTagAux (w : World) (tag : String) (checkParents : Bool) :
    Nat → Option Node → Bool
  | 0, _ => false
  | _ + 1, none => false
  | fuel + 1, some n =>
    if (match n.tags with | some ts => ts.contains tag | none => false) then
      true
    else if !checkParents then
      false
    else
      nodeHasTagAux w tag checkParents fuel (subgraphNodeOfGraph w n.graphId)

/-- `nodeHasTag(node, tag, checkParents)`: true when the node, or (when
`checkParents`) an ancestor subgraph node, carries the tag. -/
def nodeHasTag (w : World) (n : Node) (tag : String) (checkParents : Bool) : Bool :=
  nodeHasTagAux w tag checkParents (w.graphs.length + 1) (some n)

/-- JavaScript truthiness of the `tag` argument in `(tag && ...)`: `null` and
the empty string are falsy. -/
def tagTruthy : Option String → Bool
  | none => false
  | some t => t != ""

/-- `isActiveNode(node, tag)`: null nodes are inactive; reroutes and graph
input/output nodes skip the tag check; a set tag filter excludes untagged
nodes; any mode other than `ALWAYS` (muted, bypassed, ...) is inactive. -/
def isActiveNode (w : World) (node : Option Node) (tag : Option String) : Bool :=
  match node with
  | none => false
  | some n =>
    if !isReroute n && !isGraphInputOutput n &&
        (tagTruthy tag && !nodeHasTag w n (tag.getD "") true) then
      false
    else if n.mode != NodeMode.ALWAYS then
      false
    else
      true

/-- `node.iterateParentSubgraphNodes()`: the chain of ancestor Subgraph nodes
from the node's graph outward (litegraph-ts; follows
`graph._subgraph_node` pointers until the root graph). -/
def parentSubgraphNodesAux (w : World) : Nat → Nat → List Node
  | 0, _ => []
  | fuel + 1, gid =>
    match subgraphNodeOfGraph w gid with
    | none => []
    | some p => p :: parentSubgraphNodesAux w fuel p.graphId

def parentSubgraphNodes (w : World) (gid : Nat) : List Node :=
  parentSubgraphNodesAux w (w.graphs.length + 1) gid

/-- `isActiveBackendNode(node, tag)`: a backend node that is itself active
and is not contained in any inactive ancestor subgraph. -/
def isActiveBackendNode (w : World) (n : Node) (tag : Option String) : Bool :=
  if !n.isBackendNode then
    false
  else if !isActiveNode w (some n) tag then
    false
  else if graphIsSubgraph w n.graphId then
    if (parentSubgraphNodes w n.graphId).any
        (fun p => !isActiveNode w (some p) tag) then
      false
    else
      true
  else
    true

/-- The `graph._subgraph_node` pointer chain starting at `gid` reaches the
root within `fuel` steps.  This is the spec's data-model invariant that graph
nesting forms a tree, phrased locally and decidably. -/
def climbOk (w : World) : Nat → Nat → Bool
  | 0, _ => false
  | fuel + 1, gid =>
    match subgraphNodeOfGraph w gid with
    | none => true
    | some p => climbOk w fuel p.graphId

/-- Every graph's parent chain terminates: nesting is a tree (no pointer
cycles, chains no longer than the number of graphs). -/
def parentsAcyclic (w : World) : Bool :=
  w.graphs.all (fun g => climbOk w w.graphs.length g.id)

/-! ## Upstream node locator (`getUpstreamLink`, `UpstreamNodeLocator`) -/

/-- The `UpstreamResult` quadruple `[graph, link, inputSlot, node]`. -/
abbrev UpstreamResult := Option Nat × Option LLink × Option Nat × Option Node

/-- `subgraph.getInnerGraphOutputByIndex(idx)`: the `idx`-th GraphOutput
boundary node of the inner graph (litegraph-ts). -/
def getInnerGraphOutputByIndex (w : World) (inner : Nat) (idx : Nat) : Option Node :=
  (getGraph w inner).bind (fun g =>
    (g.nodes.filter (fun n => isGraphInputOutput n &&
      match n.kind with | .graphOutput _ => true | _ => false)).get? idx)

/-- `followSubgraph`: cross from a Subgraph node into its inner graph's
matching output boundary node and take that node's own input link. -/
def followSubgraph (w : World) (subgraphNode : Node) (inner : Nat) (link : LLink) :
    Except String UpstreamResult :=
  if link.origin_id != subgraphNode.id then
    .error "Invalid link and graph output!"
  else
    match getInnerGraphOutputByIndex w inner link.origin_slot with
    | none => .error "No inner graph input!"
    | some innerGraphOutput =>
      let nextLink := getInputLink w innerGraphOutput 0
      .ok (some innerGraphOutput.graphId, nextLink, some 0, some innerGraphOutput)

/-- `followGraphInput`: cross from a graph-input boundary node out to the
owning Subgraph node in the parent graph, matched by input name, and take the
subgraph's corresponding external input link. -/
def followGraphInput (w : World) (graphInput : Node) (nameInGraph : String)
    (link : LLink) : Except String UpstreamResult :=
  if link.origin_id != graphInput.id then
    .error "Invalid link and graph input!"
  else
    match subgraphNodeOfGraph w graphInput.graphId with
    | none => .error "No outer subgraph!"
    | some outerSubgraph =>
      match outerSubgraph.inputs.findIdx? (fun i => i.name == nameInGraph) with
      | none => .error "No outer input slot!"
      | some outerInputIndex =>
        let nextLink := getInputLink w outerSubgraph outerInputIndex
        .ok (some outerSubgraph.graphId, nextLink, some outerInputIndex,
             some outerSubgraph)

/-- `getUpstreamLink(parent, currentLink)`: dispatch on the parent's
structural role.  The Subgraph and GraphInput arms dereference `currentLink`
(a null link there would be a TypeError, modelled as an error); the custom
accessor and single-input arms do not read it. -/
def getUpstreamLink (w : World) (parent : Node) (currentLink : Option LLink) :
    Except String UpstreamResult :=
  match parent.kind with
  | .subgraph inner =>
    match currentLink with
    | none => .error "TypeError: null currentLink"
    | some l => followSubgraph w parent inner l
  | .graphInput nameInGraph =>
    match currentLink with
    | none => .error "TypeError: null currentLink"
    | some l => followGraphInput w parent nameInGraph l
  | .frontendCustom upstreamLinkId =>
    let link := upstreamLinkId.bind (getLinkById w parent.graphId)
    .ok (some parent.graphId, link, link.map (fun l => l.target_slot), some parent)
  | _ =>
    if parent.inputs.length == 1 then
      match getInputLink w parent 0 with
      | some link => .ok (some parent.graphId, some link, some 0, some parent)
      | none => .ok (none, none, none, none)
    else
      .ok (none, none, none, none)

/-- The quadruple returned by `locateUpstream`:
`(foundNode, linkUsed, inputSlotAtFound, lastVisitedNode)`. -/
abbrev LocateResult := Option Node × Option LLink × Option Nat × Option Node

/-- The mutable locals of `locateUpstream`'s while loop. -/
structure LocState where
  parent : Option Node
  currentLink : Option LLink
  currentInputSlot : Option Nat
  currentNode : Option Node
  seen : List Nat

/-- The return statements after the loop: null result unless the ending
parent is active, satisfies the target predicate, and a link was used.
(For a null parent the `!isActiveNode` disjunct short-circuits.) -/
def locateFinal (w : World) (isTarget : Node → Option LLink → Bool)
    (tag : Option String) (st : LocState) : Except String LocateResult :=
  match st.parent with
  | none => .ok (none, st.currentLink, st.currentInputSlot, st.currentNode)
  | some p =>
    if !isActiveNode w (some p) tag || !isTarget p st.currentLink ||
        st.currentLink.isNone then
      .ok (none, st.currentLink, st.currentInputSlot, st.currentNode)
    else
      .ok (some p, st.currentLink, st.currentInputSlot, st.currentNode)

/-- One check of the loop guard `shouldFollowParent` plus (when it holds) one
execution of the loop body.  `Sum.inl` is a return from the whole call,
`Sum.inr` the state for the next iteration.  `currentInputSlot` and
`currentNode` are overwritten before the null-link break, as in the source;
the inner `!isActiveNode(parent, tag)` re-check is dead code kept from the
source (the guard already established activity). -/
def locateStep (w : World) (isTarget : Node → Option LLink → Bool)
    (tag : Option String) (st : LocState) :
    Except String LocateResult ⊕ LocState :=
  match st.parent with
  | none => .inl (locateFinal w isTarget tag st)
  | some p =>
    if !(isActiveNode w (some p) tag && !isTarget p st.currentLink) then
      .inl (locateFinal w isTarget tag st)
    else
      match getUpstreamLink w p st.currentLink with
      | .error e => .inl (.error e)
      | .ok (nextGraph, nextLink, nextInputSlot, nextNode) =>
        match nextLink with
        | none =>
          .inl (locateFinal w isTarget tag
            { st with currentInputSlot := nextInputSlot, currentNode := nextNode })
        | some nl =>
          if !(st.seen.contains nl.id) then
            match nextGraph with
            | none => .inl (.error "null graph")
            | some g =>
              let nextParent := getNodeById w g nl.origin_id
              if !isActiveNode w (some p) tag then
                .inr { parent := none, currentLink := st.currentLink,
                       currentInputSlot := nextInputSlot, currentNode := nextNode,
                       seen := nl.id :: st.seen }
              else
                .inr { parent := nextParent, currentLink := some nl,
                       currentInputSlot := nextInputSlot, currentNode := nextNode,
                       seen := nl.id :: st.seen }
          else
            .inr { parent := none, currentLink := st.currentLink,
                   currentInputSlot := nextInputSlot, currentNode := nextNode,
                   seen := st.seen }

/-- The loop, with fuel; `none` means the fuel ran out (shown below never to
happen at `locBound`). -/
def locateUpstreamAux (w : World) (isTarget : Node → Option LLink → Bool)
    (tag : Option String) : Nat → LocState → Option (Except String LocateResult)
  | 0, _ => none
  | fuel + 1, st =>
    match locateStep w isTarget tag st with
    | .inl r => some r
    | .inr st' => locateUpstreamAux w isTarget tag fuel st'

/-- All link ids present anywhere in the world; every link the traversal can
reach is found by id lookup in some graph, so its id lies in this list. -/
def allLinkIds (w : World) : List Nat :=
  w.graphs.flatMap (fun g => g.links.map (fun l => l.id))

/-- Fuel sufficient for any traversal: each continuing iteration either
records a fresh link id in `seen` or clears `parent` (ending the loop at the
next guard check). -/
def locBound (w : World) : Nat :=
  (allLinkIds w).length + 2

/-- `UpstreamNodeLocator.locateUpstream(fromNode, inputIndex, tag)` with the
target predicate `isTarget` (the constructor argument `isTheTargetNode`). -/
def locateUpstream (w : World) (isTarget : Node → Option LLink → Bool)
    (fromNode : Node) (inputIndex : Nat) (tag : Option String) :
    Option (Except String LocateResult) :=
  match getInputNode w fromNode inputIndex with
  | none => some (.ok (none, none, none, none))
  | some parent =>
    locateUpstreamAux w isTarget tag (locBound w)
      { parent := some parent,
        currentLink := getInputLink w fromNode inputIndex,
        currentInputSlot := some inputIndex,
        currentNode := some fromNode,
        seen := [] }

/-! ## Prompt serializer (`ComfyPromptSerializer`) -/

/-- One entry of the serialized prompt: `{inputs, class_type}`. -/
structure SerializedPromptEntry where
  inputs : List (String × JVal)
  class_type : String

/-- The serializer's result `{workflow, output}`.  The workflow field is the
structural graph snapshot (`graph.serialize()`), not otherwise interpreted. -/
structure SerializedPrompt where
  workflow : Option LGraph
  output : List (String × SerializedPromptEntry)

/-- The body of the `serializeInputValues` loop for slot `i`: skip slots fed
by a node whose mode is not `ALWAYS`; use the configured default for
unconnected slots (unless it is null/undefined); capture the link's computed
data as a literal when a frontend node feeds a backend node and the slot is
marked serializable. -/
def serializeInputSlot (w : World) (node : Node) (i : Nat) : Option (String × JVal) :=
  match node.inputs.get? i with
  | none => none
  | some inp =>
    let inputLink := getInputLink w node i
    let inputNode := getInputNode w node i
    if (match inputNode with
        | some m => m.mode != NodeMode.ALWAYS
        | none => false) then
      none
    else
      match inputLink, inputNode with
      | some l, some innode =>
        let serializeFlag :=
          match inp.comfy with
          | some c => c.serialize
          | none => true
        if serializeFlag && node.isBackendNode && !innode.isBackendNode then
          some (inp.name, l.data)
        else
          none
      | _, _ =>
        match inp.comfy with
        | some c =>
          match c.defaultValue with
          | some dv =>
            match dv with
            | .null => none
            | .jsUndefined => none
            | _ => some (inp.name, dv)
          | none => none
        | none => none

/-- `serializeInputValues(node)`: literal input values captured from
frontend-only producer nodes (and slot defaults). -/
def serializeInputValues (w : World) (node : Node) : List (String × JVal) :=
  (List.range node.inputs.length).foldl
    (fun inputs i =>
      match serializeInputSlot w node i with
      | some kv => objSet inputs kv.1 kv.2
      | none => inputs)
    []

/-- `serializeBackendLinks(node, tag)`: for each input slot, locate the
nearest active upstream backend node and record the two-element reference
`[String(originId), originSlot]`; the first slot of a given name wins.  A
thrown traversal error propagates. -/
def serializeBackendLinks (w : World) (node : Node) (tag : Option String) :
    Except String (List (String × JVal)) :=
  (List.range node.inputs.length).foldlM
    (fun inputs i =>
      match locateUpstream w (fun n _ => n.isBackendNode) node i tag with
      | none => .error "fuel exhausted"
      | some (.error e) => .error e
      | some (.ok (backendNode, linkLeadingTo, _, _)) =>
        match backendNode with
        | some _ =>
          match node.inputs.get? i, linkLeadingTo with
          | some input, some l =>
            if (objGet inputs input.name).isSome then
              .ok inputs
            else
              .ok (objSet inputs input.name
                (JVal.arr [JVal.str (toString l.origin_id),
                           JVal.num (Int.ofNat l.origin_slot)]))
          | _, _ => .error "TypeError: missing slot or link"
        | none => .ok inputs)
    []

/-- `graph.computeExecutionOrderRecursive` (litegraph): an execution order
over the graph's nodes, recursing into subgraphs.  The output mapping is
keyed by id, so the claims below do not depend on the order; the model
enumerates each graph's node list in place, inlining subgraph contents. -/
def allNodesRecursive (w : World) : Nat → Nat → List Node
  | 0, _ => []
  | fuel + 1, gid =>
    match getGraph w gid with
    | none => []
    | some g =>
      g.nodes.flatMap (fun n =>
        n :: (match n.kind with
              | .subgraph inner => allNodesRecursive w fuel inner
              | _ => []))

/-- The output mapping before the pruning pass: every active backend node
contributes `{inputs: {...literals, ...links}, class_type}` under its
stringified id (link references overwrite same-named literals). -/
def serializeOutput (w : World) (gid : Nat) (tag : Option String) :
    Except String (List (String × SerializedPromptEntry)) :=
  (allNodesRecursive w (w.graphs.length + 1) gid).foldlM
    (fun output node =>
      if !isActiveBackendNode w node tag then
        .ok output
      else
        let inputs := serializeInputValues w node
        match serializeBackendLinks w node tag with
        | .error e => .error e
        | .ok links =>
          .ok (objSet output (toString node.id)
            { inputs := links.foldl (fun acc kv => objSet acc kv.1 kv.2) inputs,
              class_type := node.comfyClass }))
    []

/-- The pruning test `Array.isArray(v) && v.length === 2 && !output[v[0]]`:
any two-element array whose first element (coerced to a property key) is not
a key of the output mapping. -/
def isPrunableInput (output : List (String × SerializedPromptEntry)) (v : JVal) : Bool :=
  match v with
  | .arr (a :: rest) => rest.length == 1 && (objGet output (jsToString a)).isNone
  | _ => false

/-- Pruning applied to one node's entry: drop every prunable inputs value. -/
def pruneEntry (output : List (String × SerializedPromptEntry))
    (ent : SerializedPromptEntry) : SerializedPromptEntry :=
  { ent with inputs := ent.inputs.filter (fun kv => !isPrunableInput output kv.2) }

/-- The post-serialization pruning pass: delete every inputs entry connected
to a removed node.  Input deletion never changes the key set of `output`
itself, so the pass is a filter against the original key set. -/
def prunedOutput (output : List (String × SerializedPromptEntry)) :
    List (String × SerializedPromptEntry) :=
  output.map (fun e => (e.1, pruneEntry output e.2))

/-- `ComfyPromptSerializer.serialize(graph, tag)`.  `graph.runStep(1)` (the
frontend-only evaluation pass) is reflected in the link `data` fields, which
hold the values current after that pass; `graph.serialize()` is the
structural snapshot returned as `workflow`. -/
def serialize (w : World) (gid : Nat) (tag : Option String) :
    Except String SerializedPrompt :=
  let workflow := getGraph w gid
  match serializeOutput w gid tag with
  | .error e => .error e
  | .ok output => .ok { workflow := workflow, output := prunedOutput output }

/-! ## Backend event client (`ComfyAPI`) -/

/-- Events the client emits that the claims below observe. -/
inductive ClientEvent where
  | bPreview : String → List Nat → ClientEvent
  | statusNull : ClientEvent
  | reconnecting : ClientEvent
  | reconnected : ClientEvent
  | startPolling : ClientEvent
deriving DecidableEq

/-- `DataView.getUint32(off)` big-endian over a byte sequence; `none` models
the RangeError thrown when fewer than four bytes remain. -/
def getUint32 (data : List Nat) (off : Nat) : Option Nat :=
  match data.get? off, data.get? (off + 1), data.get? (off + 2), data.get? (off + 3) with
  | some b0, some b1, some b2, some b3 =>
    some ((b0 % 256) * 16777216 + (b1 % 256) * 65536 + (b2 % 256) * 256 + b3 % 256)
  | _, _, _, _ => none

/-- The binary arm of the websocket "message" handler.  The whole handler is
wrapped in try/catch that logs and swallows errors, so a decode failure or an
unknown event-type tag produces no events.  Note the source builds `view2`
over the original `event.data` (not the sliced `buffer`) and reads the image
type at offset 0 — i.e. from the same bytes as the event type — while the
blob payload is `buffer.slice(4)`, the bytes after the first 8. -/
def handleBinaryMessage (data : List Nat) : List ClientEvent :=
  match getUint32 data 0 with
  | none => []
  | some eventType =>
    let buffer := data.drop 4
    if eventType == 1 then
      match getUint32 data 0 with
      | none => []
      | some imageType =>
        let imageMime := if imageType == 2 then "image/png" else "image/jpeg"
        [.bPreview imageMime (buffer.drop 4)]
    else
      []

/-- The per-socket closure state of `createSocket` (`opened`, `isReconnect`). -/
structure SocketInfo where
  opened : Bool
  isReconnect : Bool
deriving DecidableEq

/-- The client state the socket callbacks share: the current socket handle
and whether a reconnect timer is pending. -/
structure ClientState where
  socket : Option SocketInfo
  reconnectPending : Bool
deriving DecidableEq

/-- `createSocket(isReconnect)`: idempotent — a no-op when a socket already
exists, otherwise installs a fresh unopened socket. -/
def createSocket (isReconnect : Bool) (s : ClientState) : ClientState :=
  if s.socket.isSome then s
  else { s with socket := some { opened := false, isReconnect := isReconnect } }

/-- Environment events delivered to the socket callbacks.  `reconnectTimer`
is the `setTimeout` body scheduled by the close handler firing after the
fixed 300 ms delay (real time is not modelled, only ordering). -/
inductive SockEvent where
  | sockOpen : SockEvent
  | sockClose : SockEvent
  | sockError : SockEvent
  | reconnectTimer : SockEvent
deriving DecidableEq

/-- One socket callback dispatch: returns the new client state and the events
emitted synchronously, in order.  "close" schedules the reconnect timer
first, then (when the socket had opened) emits `status(null)` followed by
`reconnecting`; the timer body clears the socket reference and only then
calls `createSocket(true)`; "open" on a reconnect attempt emits
`reconnected`; "error" before ever opening on a first attempt starts the
polling fallback. -/
def stepSocket (s : ClientState) (e : SockEvent) : ClientState × List ClientEvent :=
  match e, s.socket with
  | .sockOpen, some sk =>
    ({ s with socket := some { sk with opened := true } },
     if sk.isReconnect then [.reconnected] else [])
  | .sockOpen, none => (s, [])
  | .sockClose, some sk =>
    ({ s with reconnectPending := true },
     if sk.opened then [.statusNull, .reconnecting] else [])
  | .sockClose, none => (s, [])
  | .sockError, some sk =>
    (s, if !sk.isReconnect && !sk.opened then [.startPolling] else [])
  | .sockError, none => (s, [])
  | .reconnectTimer, _ =>
    (createSocket true { s with socket := none, reconnectPending := false }, [])

/-! REST helpers.  A call's environment is a `FetchOutcome`: either the fetch
promise rejected (network error) or a response arrived whose `.json()` either
parses or rejects.  A helper returning `Except.error` models a rejected
promise reaching the caller. -/

/-- Outcome of one `fetch`: rejection, or a response with an HTTP status and
the result of `res.json()`. -/
inductive FetchOutcome where
  | networkError : String → FetchOutcome
  | response : Nat → Except String JVal → FetchOutcome

/-- Whether the outcome makes the happy path of `fetch(...).then(r => r.json())`
fail (network rejection or JSON parse rejection). -/
def FetchOutcome.failed : FetchOutcome → Bool
  | .networkError _ => true
  | .response _ (.error _) => true
  | .response _ (.ok _) => false

/-- JavaScript property access `v[k]`: throws on null/undefined, yields
`undefined` for a missing key or a non-object. -/
def jget (v : JVal) (k : String) : Except String JVal :=
  match v with
  | .null => .error "TypeError: cannot read properties of null"
  | .jsUndefined => .error "TypeError: cannot read properties of undefined"
  | .obj fields => .ok ((objGet fields k).getD .jsUndefined)
  | _ => .ok .jsUndefined

/-- `ComfyAPIQueueResponse`. -/
structure ComfyAPIQueueResponse where
  running : JVal
  pending : JVal
  error : Option JVal

/-- `getQueue()`: `fetch(/queue).then(json).then(shape).catch(error shape)` —
every failure resolves to `{running: [], pending: [], error}`. -/
def getQueue (o : FetchOutcome) : Except JVal ComfyAPIQueueResponse :=
  let chain : Except JVal (JVal × JVal) :=
    match o with
    | .networkError m => .error (.str m)
    | .response _ (.error m) => .error (.str m)
    | .response _ (.ok data) =>
      match jget data "queue_running", jget data "queue_pending" with
      | .ok r, .ok p => .ok (r, p)
      | .error m, _ => .error (.str m)
      | _, .error m => .error (.str m)
  match chain with
  | .ok rp => .ok { running := rp.1, pending := rp.2, error := none }
  | .error e => .ok { running := .arr [], pending := .arr [], error := some e }

/-- `ComfyAPIHistoryResponse`. -/
structure ComfyAPIHistoryResponse where
  history : JVal
  error : Option JVal

/-- `getHistory()`: failures resolve to `{history: {}, error}`. -/
def getHistory (o : FetchOutcome) : Except JVal ComfyAPIHistoryResponse :=
  match o with
  | .networkError m => .ok { history := .obj [], error := some (.str m) }
  | .response _ (.error m) => .ok { history := .obj [], error := some (.str m) }
  | .response _ (.ok data) => .ok { history := data, error := none }

/-- `getSystemStats()`: `fetch(/system_stats).then(r => r.json())` with no
catch — a network or parse failure rejects all the way to the caller. -/
def getSystemStats (o : FetchOutcome) : Except JVal JVal :=
  match o with
  | .networkError m => .error (.str m)
  | .response _ (.error m) => .error (.str m)
  | .response _ (.ok data) => .ok data

/-- `getNodeDefs()`: same uncaught shape as `getSystemStats`. -/
def getNodeDefs (o : FetchOutcome) : Except JVal JVal :=
  match o with
  | .networkError m => .error (.str m)
  | .response _ (.error m) => .error (.str m)
  | .response _ (.ok data) => .ok data

/-- `getExtensions()`: same uncaught shape. -/
def getExtensions (o : FetchOutcome) : Except JVal JVal :=
  match o with
  | .networkError m => .error (.str m)
  | .response _ (.error m) => .error (.str m)
  | .response _ (.ok data) => .ok data

/-- `getEmbeddings()`: same uncaught shape. -/
def getEmbeddings (o : FetchOutcome) : Except JVal JVal :=
  match o with
  | .networkError m => .error (.str m)
  | .response _ (.error m) => .error (.str m)
  | .response _ (.ok data) => .ok data

/-- `ComfyPromptRequest` (the prompt payload and extra data are opaque to the
queueing logic). -/
structure ComfyPromptRequest where
  client_id : Option String
  prompt : JVal
  extra_data : JVal
  front : Option Bool
  number : Option Int

/-- The body mutations `queuePrompt` performs before POSTing: install the
client id, and set `front = true` when `number === -1` (any other or absent
`number` leaves `front` exactly as the caller supplied it). -/
def prepareRequestBody (clientId : Option String) (body : ComfyPromptRequest) :
    ComfyPromptRequest :=
  let body := { body with client_id := clientId }
  if body.number == some (-1) then { body with front := some true } else body

/-- `queuePrompt(body)`: POST `/prompt`; on non-200 the parsed error payload
is thrown and immediately caught by the trailing `.catch(error => error)`, so
the call resolves with the backend's structured error object; parse/network
failures likewise resolve with the error value.  (The `JSON.stringify` guard
cannot fail on the embedded value type.)  Returns the resolved value:
`{promptID, number}` on success, the error payload otherwise. -/
def queuePrompt (clientId : Option String) (body : ComfyPromptRequest)
    (o : FetchOutcome) : Except JVal JVal :=
  let _sent := prepareRequestBody clientId body
  match o with
  | .networkError m => .ok (.str m)
  | .response status json =>
    if status != 200 then
      match json with
      | .ok errPayload => .ok errPayload
      | .error m => .ok (.str m)
    else
      match json with
      | .error m => .ok (.str m)
      | .ok raw =>
        match jget raw "prompt_id", jget raw "number" with
        | .ok pid, .ok num => .ok (.obj [("promptID", pid), ("number", num)])
        | .error m, _ => .ok (.str m)
        | _, .error m => .ok (.str m)

/-! ## Concrete example graphs -/

/-- Backend node `A` (id 1) of the reroute chain. -/
def chainNodeA : Node :=
  { id := 1, graphId := 1, mode := NodeMode.ALWAYS, tags := none, inputs := [],
    kind := .backend, comfyClass := "ClsA" }

/-- First reroute (id 2) of the chain, with configurable tags. -/
def chainNodeR1 (rt : Option (List String)) : Node :=
  { id := 2, graphId := 1, mode := NodeMode.ALWAYS, tags := rt,
    inputs := [{ name := "r", link := some 10, comfy := none }],
    kind := .reroute, comfyClass := "" }

/-- Second reroute (id 3) of the chain, with configurable tags and mode. -/
def chainNodeR2 (rt : Option (List String)) (mode : Nat) : Node :=
  { id := 3, graphId := 1, mode := mode, tags := rt,
    inputs := [{ name := "r", link := some 11, comfy := none }],
    kind := .reroute, comfyClass := "" }

/-- Backend node `B` (id 4) of the chain, consuming through the reroutes. -/
def chainNodeB : Node :=
  { id := 4, graphId := 1, mode := NodeMode.ALWAYS, tags := none,
    inputs := [{ name := "in", link := some 12, comfy := none }],
    kind := .backend, comfyClass := "ClsB" }

/-- `A -> Reroute -> Reroute -> B` in one flat graph, with arbitrary tags on
the two reroutes and a configurable mode on the second. -/
def chainWorld (rt1 rt2 : Option (List String)) (r2mode : Nat) : World :=
  { graphs := [
      { id := 1,
        nodes := [chainNodeA, chainNodeR1 rt1, chainNodeR2 rt2 r2mode, chainNodeB],
        links := [
          { id := 10, origin_id := 1, origin_slot := 0, target_id := 2,
            target_slot := 0, data := .null },
          { id := 11, origin_id := 2, origin_slot := 0, target_id := 3,
            target_slot := 0, data := .null },
          { id := 12, origin_id := 3, origin_slot := 0, target_id := 4,
            target_slot := 0, data := .null }],
        subgraphNodeRef := none }] }

/-- Two frontend nodes whose links form a cycle, feeding a backend node:
`F1 (id 2) <- F2 (id 3) <- F1`, and `B (id 1) <- F1`. -/
def cycleWorld : World :=
  { graphs := [
      { id := 1,
        nodes := [
          { id := 1, graphId := 1, mode := NodeMode.ALWAYS, tags := none,
            inputs := [{ name := "in", link := some 20, comfy := none }],
            kind := .backend, comfyClass := "ClsB" },
          { id := 2, graphId := 1, mode := NodeMode.ALWAYS, tags := none,
            inputs := [{ name := "a", link := some 21, comfy := none }],
            kind := .frontend, comfyClass := "" },
          { id := 3, graphId := 1, mode := NodeMode.ALWAYS, tags := none,
            inputs := [{ name := "b", link := some 22, comfy := none }],
            kind := .frontend, comfyClass := "" }],
        links := [
          { id := 20, origin_id := 2, origin_slot := 0, target_id := 1,
            target_slot := 0, data := .null },
          { id := 21, origin_id := 3, origin_slot := 0, target_id := 2,
            target_slot := 0, data := .null },
          { id := 22, origin_id := 2, origin_slot := 0, target_id := 3,
            target_slot := 0, data := .null }],
        subgraphNodeRef := none }] }

/-- A backend node nested two subgraph levels deep.  The inner subgraph node
(id 101) and outer subgraph node (id 102) carry the given tags. -/
def nestedWorld (innerTags outerTags : Option (List String)) : World :=
  { graphs := [
      { id := 0,
        nodes := [
          { id := 1, graphId := 0, mode := NodeMode.ALWAYS, tags := none,
            inputs := [], kind := .backend, comfyClass := "X" }],
        links := [], subgraphNodeRef := some (1, 101) },
      { id := 1,
        nodes := [
          { id := 101, graphId := 1, mode := NodeMode.ALWAYS, tags := innerTags,
            inputs := [], kind := .subgraph 0, comfyClass := "" }],
        links := [], subgraphNodeRef := some (2, 102) },
      { id := 2,
        nodes := [
          { id := 102, graphId := 2, mode := NodeMode.ALWAYS, tags := outerTags,
            inputs := [], kind := .subgraph 1, comfyClass := "" }],
        links := [], subgraphNodeRef := none }] }

/-- The nested backend node itself (as stored in `nestedWorld`). -/
def nestedNodeN : Node :=
  { id := 1, graphId := 0, mode := NodeMode.ALWAYS, tags := none,
    inputs := [], kind := .backend, comfyClass := "X" }

/-- Two directly linked backend nodes `A (id 1) -> B (id 2)`. -/
def directWorld : World :=
  { graphs := [
      { id := 1,
        nodes := [
          { id := 1, graphId := 1, mode := NodeMode.ALWAYS, tags := none,
            inputs := [], kind := .backend, comfyClass := "ClsA" },
          { id := 2, graphId := 1, mode := NodeMode.ALWAYS, tags := none,
            inputs := [{ name := "in", link := some 5, comfy := none }],
            kind := .backend, comfyClass := "ClsB" }],
        links := [
          { id := 5, origin_id := 1, origin_slot := 0, target_id := 2,
            target_slot := 0, data := .null }],
        subgraphNodeRef := none }] }

/-- A frontend node feeding a backend node a literal that happens to be a
two-element number array `[5, 7]`. -/
def pairLiteralWorld : World :=
  { graphs := [
      { id := 1,
        nodes := [
          { id := 1, graphId := 1, mode := NodeMode.ALWAYS, tags := none,
            inputs := [{ name := "pair", link := some 7, comfy := none }],
            kind := .backend, comfyClass := "ClsB" },
          { id := 2, graphId := 1, mode := NodeMode.ALWAYS, tags := none,
            inputs := [], kind := .frontend, comfyClass := "" }],
        links := [
          { id := 7, origin_id := 2, origin_slot := 0, target_id := 1,
            target_slot := 0, data := .arr [.num 5, .num 7] }],
        subgraphNodeRef := none }] }

/-- A bypassed (mode 4) frontend node feeding a backend node, plus a bypassed
backend node, for the inactive-mode claims. -/
def modeWorld : World :=
  { graphs := [
      { id := 1,
        nodes := [
          { id := 1, graphId := 1, mode := NodeMode.ALWAYS, tags := none,
            inputs := [{ name := "in", link := some 7, comfy := none }],
            kind := .backend, comfyClass := "ClsB" },
          { id := 2, graphId := 1, mode := 4, tags := none,
            inputs := [], kind := .frontend, comfyClass := "" },
          { id := 3, graphId := 1, mode := 4, tags := none,
            inputs := [], kind := .backend, comfyClass := "ClsC" }],
        links := [
          { id := 7, origin_id := 2, origin_slot := 0, target_id := 1,
            target_slot := 0, data := .null }],
        subgraphNodeRef := none }] }

/-! ## Helper definitions for measures, fuel wrappers and concrete values -/

/-- Whether the node's own `properties.tags` contain the tag (the first check
of `nodeHasTag`, before walking parents). -/
def nodeSelfHasTag (tag : String) (n : Node) : Bool :=
  match n.tags with
  | some ts => ts.contains tag
  | none => false

/-- Termination measure for the locator loop: link ids not yet seen, plus one
when a parent is still set. -/
def locMeasure (w : World) (st : LocState) : Nat :=
  ((allLinkIds w).filter (fun lid => !(st.seen.contains lid))).length +
    (match st.parent with | some _ => 1 | none => 0)

/-- `locateUpstream` with explicit fuel, for stating that the fuel bound is
sufficient. -/
def locateUpstreamWithFuel (w : World) (isTarget : Node → Option LLink → Bool)
    (fromNode : Node) (inputIndex : Nat) (tag : Option String) (fuel : Nat) :
    Option (Except String LocateResult) :=
  match getInputNode w fromNode inputIndex with
  | none => some (.ok (none, none, none, none))
  | some parent =>
    locateUpstreamAux w isTarget tag fuel
      { parent := some parent,
        currentLink := getInputLink w fromNode inputIndex,
        currentInputSlot := some inputIndex,
        currentNode := some fromNode,
        seen := [] }

/-- The backend node `B` of `cycleWorld`. -/
def cycleNodeB : Node :=
  { id := 1, graphId := 1, mode := NodeMode.ALWAYS, tags := none,
    inputs := [{ name := "in", link := some 20, comfy := none }],
    kind := .backend, comfyClass := "ClsB" }

/-- The serialized prompt of `directWorld` (extracted). -/
def exPrompt1 : SerializedPrompt :=
  match serialize directWorld 1 none with
  | .ok sp => sp
  | .error _ => { workflow := none, output := [] }

/-- The entry of node `B` in `exPrompt1` (extracted). -/
def exEntryB : SerializedPromptEntry :=
  (objGet exPrompt1.output "2").getD { inputs := [], class_type := "" }

/-- The pre-pruning output mapping of `pairLiteralWorld` (extracted). -/
def exOut9 : List (String × SerializedPromptEntry) :=
  match serializeOutput pairLiteralWorld 1 none with
  | .ok out => out
  | .error _ => []

/-- The entry of the backend node in `exOut9` (extracted). -/
def exEntry9pre : SerializedPromptEntry :=
  (objGet exOut9 "1").getD { inputs := [], class_type := "" }

/-- Node `B` of `directWorld` (as stored there). -/
def directNodeB : Node :=
  { id := 2, graphId := 1, mode := NodeMode.ALWAYS, tags := none,
    inputs := [{ name := "in", link := some 5, comfy := none }],
    kind := .backend, comfyClass := "ClsB" }

/-- Node `B` of `modeWorld`. -/
def modeNodeB : Node :=
  { id := 1, graphId := 1, mode := NodeMode.ALWAYS, tags := none,
    inputs := [{ name := "in", link := some 7, comfy := none }],
    kind := .backend, comfyClass := "ClsB" }

/-- The bypassed (mode 4) frontend node of `modeWorld`. -/
def modeNodeF : Node :=
  { id := 2, graphId := 1, mode := 4, tags := none, inputs := [],
    kind := .frontend, comfyClass := "" }

/-- The bypassed (mode 4) backend node of `modeWorld`. -/
def modeNodeC : Node :=
  { id := 3, graphId := 1, mode := 4, tags := none, inputs := [],
    kind := .backend, comfyClass := "ClsC" }

/-- The locator result for `directWorld`'s node `B`, slot 0 (extracted). -/
def exLocDirect : LocateResult :=
  match locateUpstream directWorld (fun n _ => n.isBackendNode) directNodeB 0 none with
  | some (.ok r) => r
  | _ => (none, none, none, none)

/-- The serialized prompt of the reroute chain with the second reroute muted
(extracted). -/
def exPromptMuted : SerializedPrompt :=
  match serialize (chainWorld none none NodeMode.NEVER) 1 none with
  | .ok sp => sp
  | .error _ => { workflow := none, output := [] }

/-- The entry of chain node `B` in `exPromptMuted` (extracted). -/
def exEntryMutedB : SerializedPromptEntry :=
  (objGet exPromptMuted.output "4").getD { inputs := [], class_type := "" }

/-- The inner subgraph node of `nestedWorld` (as stored there). -/
def nestedS1 (tags : Option (List String)) : Node :=
  { id := 101, graphId := 1, mode := NodeMode.ALWAYS, tags := tags,
    inputs := [], kind := .subgraph 0, comfyClass := "" }

/-- The outer subgraph node of `nestedWorld` (as stored there). -/
def nestedS2 (tags : Option (List String)) : Node :=
  { id := 102, graphId := 2, mode := NodeMode.ALWAYS, tags := tags,
    inputs := [], kind := .subgraph 1, comfyClass := "" }

/-! ## Toolbox lemmas about association-list objects -/

theorem objGet_map_entry {α β : Type} (g : α → β) (l : List (String × α)) (k : String) :
    objGet (l.map (fun e => (e.1, g e.2))) k = (objGet l k).map g := by
  induction l with
  | nil => rfl
  | cons hd tl ih =>
    by_cases h : (hd.1 == k) = true
    · simp [objGet, List.find?, h]
    · simp only [Bool.not_eq_true] at h
      simp [objGet, List.find?, h] at ih ⊢
      exact ih

theorem objGet_mem {α : Type} {l : List (String × α)} {k : String} {v : α}
    (h : objGet l k = some v) : (k, v) ∈ l := by
  simp only [objGet, Option.map_eq_some'] at h
  rcases h with ⟨pair, hfind, hv⟩
  have hmem := List.mem_of_find?_eq_some hfind
  have hp : (pair.1 == k) = true := by simpa using List.find?_some hfind
  have hpair : pair = (k, v) := by
    rcases pair with ⟨a, b⟩
    have ha : a = k := by simpa using eq_of_beq hp
    simp only at hv
    simp [ha, hv]
  rwa [hpair] at hmem

theorem objGet_none_of_forall {α : Type} {l : List (String × α)} {k : String}
    (h : ∀ p ∈ l, p.1 ≠ k) : objGet l k = none := by
  unfold objGet
  have hfind : l.find? (fun p => p.1 == k) = none := by
    rw [List.find?_eq_none]
    intro p hp
    simpa using h p hp
  rw [hfind]
  rfl

theorem mem_objSet {α : Type} {l : List (String × α)} {k : String} {v : α}
    {p : String × α} (h : p ∈ objSet l k v) : p = (k, v) ∨ p ∈ l := by
  unfold objSet at h
  by_cases hs : (l.find? (fun q => q.1 == k)).isSome
  · rw [if_pos hs] at h
    rcases List.mem_map.mp h with ⟨q, hq, hmap⟩
    by_cases hqk : (q.1 == k) = true
    · left; rw [if_pos hqk] at hmap; exact hmap.symm
    · right
      rw [if_neg hqk] at hmap
      rw [← hmap]; exact hq
  · rw [if_neg hs] at h
    rcases List.mem_append.mp h with h1 | h1
    · right; exact h1
    · left; simpa using h1

theorem objSet_keys {α : Type} (l : List (String × α)) (k : String) (v : α) :
    (objSet l k v).map Prod.fst =
      if (l.find? (fun q => q.1 == k)).isSome then l.map Prod.fst
      else l.map Prod.fst ++ [k] := by
  unfold objSet
  by_cases hs : (l.find? (fun q => q.1 == k)).isSome
  · rw [if_pos hs, if_pos hs]
    rw [List.map_map]
    apply List.map_congr_left
    intro p _
    by_cases hpk : (p.1 == k) = true
    · simp only [Function.comp, hpk, if_pos]
      exact (eq_of_beq hpk).symm
    · simp [Function.comp, hpk]
  · rw [if_neg hs, if_neg hs]
    simp

theorem objSet_keys_nodup {α : Type} {l : List (String × α)} (k : String) (v : α)
    (h : (l.map Prod.fst).Nodup) : ((objSet l k v).map Prod.fst).Nodup := by
  rw [objSet_keys]
  by_cases hs : (l.find? (fun q => q.1 == k)).isSome
  · rw [if_pos hs]; exact h
  · rw [if_neg hs]
    have hk : k ∉ l.map Prod.fst := by
      intro hmem
      rcases List.mem_map.mp hmem with ⟨p, hp, hpk⟩
      have : l.find? (fun q => q.1 == k) = none := Option.not_isSome_iff_eq_none.mp hs
      rw [List.find?_eq_none] at this
      exact this p hp (by simp [hpk])
    simp [List.nodup_append, h, hk]

theorem objGet_filter_none {α : Type} {l : List (String × α)} {k : String} {v : α}
    (f : String × α → Bool) (hnd : (l.map Prod.fst).Nodup)
    (h : objGet l k = some v) (hf : f (k, v) = false) :
    objGet (l.filter f) k = none := by
  induction l with
  | nil => simp [objGet] at h
  | cons hd tl ih =>
    simp only [List.map_cons, List.nodup_cons] at hnd
    by_cases hk : (hd.1 == k) = true
    · have hdk : hd.1 = k := eq_of_beq hk
      have hpos : List.find? (fun p => p.1 == k) (hd :: tl) = some hd :=
        List.find?_cons_of_pos _ hk
      have hdv : hd.2 = v := by
        simp only [objGet, hpos] at h
        simpa using h
      have hdpair : hd = (k, v) := by
        rcases hd with ⟨c, d⟩
        simp only at hdk hdv
        simp [hdk, hdv]
      have hdrop : f hd = false := by rw [hdpair]; exact hf
      rw [List.filter_cons_of_neg (by simp [hdrop])]
      apply objGet_none_of_forall
      intro p hp hpk
      apply hnd.1
      have hkmem : k ∈ tl.map Prod.fst :=
        List.mem_map.mpr ⟨p, List.mem_of_mem_filter hp, hpk⟩
      rw [hdk]
      exact hkmem
    · have hneg : List.find? (fun p => p.1 == k) (hd :: tl) =
          List.find? (fun p => p.1 == k) tl :=
        List.find?_cons_of_neg _ (by simpa using hk)
      have h' : objGet tl k = some v := by
        unfold objGet at h ⊢
        rw [hneg] at h
        exact h
      have ihr := ih hnd.2 h'
      by_cases hfd : f hd = true
      · rw [List.filter_cons_of_pos hfd]
        unfold objGet at ihr ⊢
        have hneg2 : List.find? (fun p => p.1 == k) (hd :: List.filter f tl) =
            List.find? (fun p => p.1 == k) (List.filter f tl) :=
          List.find?_cons_of_neg _ (by simpa using hk)
        rw [hneg2]
        exact ihr
      · rw [List.filter_cons_of_neg (by simpa using hfd)]
        exact ihr

theorem foldl_objSet_step_nodup {β α : Type} (step : List (String × α) → β → List (String × α))
    (hstep : ∀ acc x, step acc x = acc ∨ ∃ k v, step acc x = objSet acc k v) :
    ∀ (xs : List β) (acc : List (String × α)), (acc.map Prod.fst).Nodup →
      ((xs.foldl step acc).map Prod.fst).Nodup := by
  intro xs
  induction xs with
  | nil => intro acc h; exact h
  | cons x xs ih =>
    intro acc h
    rw [List.foldl_cons]
    apply ih
    rcases hstep acc x with he | ⟨k, v, he⟩
    · rw [he]; exact h
    · rw [he]; exact objSet_keys_nodup k v h

theorem serializeInputValues_keys_nodup (w : World) (node : Node) :
    ((serializeInputValues w node).map Prod.fst).Nodup := by
  unfold serializeInputValues
  apply foldl_objSet_step_nodup
  · intro acc i
    cases h : serializeInputSlot w node i with
    | none => left; rfl
    | some kv => right; exact ⟨kv.1, kv.2, rfl⟩
  · exact List.nodup_nil

theorem mergedInputs_keys_nodup (w : World) (node : Node)
    (links : List (String × JVal)) :
    ((links.foldl (fun acc kv => objSet acc kv.1 kv.2)
        (serializeInputValues w node)).map Prod.fst).Nodup := by
  apply foldl_objSet_step_nodup
  · intro acc kv
    right; exact ⟨kv.1, kv.2, rfl⟩
  · exact serializeInputValues_keys_nodup w node

theorem foldlM_except_invariant {β γ : Type} (P : γ → Prop)
    (step : γ → β → Except String γ)
    (hstep : ∀ acc x out, P acc → step acc x = .ok out → P out) :
    ∀ (xs : List β) (acc : γ), P acc →
      ∀ out, xs.foldlM step acc = .ok out → P out := by
  intro xs
  induction xs with
  | nil =>
    intro acc hP out h
    simp only [List.foldlM_nil, pure, Except.pure] at h
    cases h
    exact hP
  | cons x xs ih =>
    intro acc hP out h
    rw [List.foldlM_cons] at h
    cases hs : step acc x with
    | error e =>
      rw [hs] at h
      simp [Bind.bind, Except.bind] at h
    | ok acc' =>
      rw [hs] at h
      simp only [Bind.bind, Except.bind] at h
      exact ih acc' (hstep acc x acc' hP hs) out h

theorem serializeOutput_entry_inputs_nodup {w : World} {gid : Nat}
    {tag : Option String} {out : List (String × SerializedPromptEntry)}
    (hout : serializeOutput w gid tag = .ok out)
    {nid : String} {entry : SerializedPromptEntry}
    (he : objGet out nid = some entry) :
    (entry.inputs.map Prod.fst).Nodup := by
  unfold serializeOutput at hout
  have hall : ∀ p ∈ out, ((p.2).inputs.map Prod.fst).Nodup := by
    apply foldlM_except_invariant
      (fun acc => ∀ p ∈ acc, ((p.2).inputs.map Prod.fst).Nodup) _ _ _ []
      (by intro p hp; simp at hp) out hout
    intro acc node out' hP hstep
    by_cases hact : (!isActiveBackendNode w node tag) = true
    · rw [if_pos hact] at hstep
      cases hstep
      exact hP
    · rw [if_neg hact] at hstep
      simp only at hstep
      cases hl : serializeBackendLinks w node tag with
      | error e => rw [hl] at hstep; cases hstep
      | ok links =>
        rw [hl] at hstep
        simp only at hstep
        cases hstep
        intro p hp
        rcases mem_objSet hp with hnew | hold
        · rw [hnew]
          exact mergedInputs_keys_nodup w node links
        · exact hP p hold
  exact hall _ (objGet_mem he)

/-- C1: after `ComfyPromptSerializer.serialize`, every two-element-array input
value (in particular every `[originNodeIdAsString, originSlotIndex]` link
reference) has its first element present as a key of the output mapping:
inputs referencing excluded nodes were deleted by the pruning pass, never
left dangling. -/
theorem serialize_no_dangling (w : World) (gid : Nat) (tag : Option String)
    (sp : SerializedPrompt) (nid : String) (entry : SerializedPromptEntry)
    (name : String) (a b : JVal)
    (hs : serialize w gid tag = .ok sp)
    (he : objGet sp.output nid = some entry)
    (hv : objGet entry.inputs name = some (JVal.arr [a, b])) :
    (objGet sp.output (jsToString a)).isSome = true := by
  unfold serialize at hs
  cases hout : serializeOutput w gid tag with
  | error e => rw [hout] at hs; cases hs
  | ok out =>
    rw [hout] at hs
    simp only at hs
    cases hs
    simp only [prunedOutput] at he ⊢
    rw [objGet_map_entry] at he ⊢
    cases hbase : objGet out nid with
    | none => rw [hbase] at he; cases he
    | some entry0 =>
      rw [hbase] at he
      simp only [Option.map_some'] at he
      have hpe : pruneEntry out entry0 = entry := by injection he
      have hinputs : entry.inputs =
          entry0.inputs.filter (fun kv => !isPrunableInput out kv.2) := by
        rw [← hpe]; rfl
      rw [hinputs] at hv
      have hmem := objGet_mem hv
      have hkeep := List.of_mem_filter hmem
      have hnotprun : isPrunableInput out (JVal.arr [a, b]) = false := by
        simpa using hkeep
      cases hq : objGet out (jsToString a) with
      | none =>
        exfalso
        unfold isPrunableInput at hnotprun
        simp [hq] at hnotprun
      | some e2 => rfl

/-- Witness for C1 on a concrete two-backend-node graph. -/
theorem serialize_no_dangling_witness :
    serialize directWorld 1 none = .ok exPrompt1 ∧
    (objGet exPrompt1.output (jsToString (JVal.str "1"))).isSome = true :=
  ⟨rfl, serialize_no_dangling directWorld 1 none exPrompt1 "2" exEntryB "in"
    (JVal.str "1") (JVal.num 0) rfl rfl rfl⟩

/-- C9: the pruning pass does not distinguish link references from literal
values — any inputs entry holding a two-element array whose first element
(coerced to a key) is not a key of the output mapping is deleted, so a
literal two-element array captured from a frontend node is silently removed
from the prompt. -/
theorem prune_removes_literal_pairs (w : World) (gid : Nat) (tag : Option String)
    (out : List (String × SerializedPromptEntry)) (nid name : String)
    (entry : SerializedPromptEntry) (a b : JVal)
    (hout : serializeOutput w gid tag = .ok out)
    (he : objGet out nid = some entry)
    (hv : objGet entry.inputs name = some (JVal.arr [a, b]))
    (hmiss : objGet out (jsToString a) = none) :
    serialize w gid tag =
      .ok { workflow := getGraph w gid, output := prunedOutput out } ∧
    ∃ entry2, objGet (prunedOutput out) nid = some entry2 ∧
      objGet entry2.inputs name = none := by
  constructor
  · unfold serialize
    rw [hout]
  · refine ⟨{ entry with inputs :=
        entry.inputs.filter (fun kv => !isPrunableInput out kv.2) }, ?_, ?_⟩
    · simp only [prunedOutput]
      rw [objGet_map_entry, he]
      rfl
    · simp only
      apply objGet_filter_none _ (serializeOutput_entry_inputs_nodup hout he) hv
      have hprun : isPrunableInput out (JVal.arr [a, b]) = true := by
        unfold isPrunableInput
        simp [hmiss]
      simp [hprun]

/-- Witness for C9: the literal pair `[5, 7]` fed by a frontend node is
present before pruning and deleted afterwards. -/
theorem prune_removes_literal_pairs_witness :
    serialize pairLiteralWorld 1 none =
      .ok { workflow := getGraph pairLiteralWorld 1, output := prunedOutput exOut9 } ∧
    ∃ entry2, objGet (prunedOutput exOut9) "1" = some entry2 ∧
      objGet entry2.inputs "pair" = none :=
  prune_removes_literal_pairs pairLiteralWorld 1 none exOut9 "1" "pair"
    exEntry9pre (JVal.num 5) (JVal.num 7) rfl rfl rfl rfl

/-- C2: the message handler reads the image-format tag of a type-1 binary
frame from offset 0 of the whole `event.data` (the event-type bytes), not
from bytes 4..7, so a frame `[type=1][imgType=2][payload]` yields exactly one
`b_preview` whose mime is `image/jpeg` — not `image/png` as the claim (and
the 8-byte layout the code itself slices) requires.  The payload is indeed
the bytes after the first 8. -/
theorem binary_preview_format_ignored (rest : List Nat) :
    handleBinaryMessage (0 :: 0 :: 0 :: 1 :: 0 :: 0 :: 0 :: 2 :: rest) =
      [ClientEvent.bPreview "image/jpeg" rest] := rfl

/-- C7: from an open socket, a close emits `status(null)` then
`reconnecting` and schedules exactly one reconnect; the timer clears the old
socket reference and installs a fresh reconnect socket; its subsequent open
emits `reconnected` — overall order `status(null), reconnecting,
reconnected`. -/
theorem close_reopen_event_order (s : ClientState) (sk : SocketInfo)
    (hsock : s.socket = some sk) (hopen : sk.opened = true) :
    (stepSocket s .sockClose).2 = [ClientEvent.statusNull, ClientEvent.reconnecting] ∧
    (stepSocket s .sockClose).1.socket = s.socket ∧
    (stepSocket s .sockClose).1.reconnectPending = true ∧
    (stepSocket (stepSocket s .sockClose).1 .reconnectTimer).2 = [] ∧
    (stepSocket (stepSocket s .sockClose).1 .reconnectTimer).1.socket =
      some { opened := false, isReconnect := true } ∧
    (stepSocket (stepSocket (stepSocket s .sockClose).1 .reconnectTimer).1
        .sockOpen).2 = [ClientEvent.reconnected] ∧
    (stepSocket s .sockClose).2 ++
      (stepSocket (stepSocket s .sockClose).1 .reconnectTimer).2 ++
      (stepSocket (stepSocket (stepSocket s .sockClose).1 .reconnectTimer).1
        .sockOpen).2 =
      [ClientEvent.statusNull, ClientEvent.reconnecting, ClientEvent.reconnected] := by
  simp [stepSocket, hsock, hopen, createSocket]

/-- Witness for C7 at a concrete opened-socket state. -/
theorem close_reopen_event_order_witness :
    ({ socket := some { opened := true, isReconnect := false },
       reconnectPending := false } : ClientState).socket =
        some { opened := true, isReconnect := false } ∧
    (stepSocket { socket := some { opened := true, isReconnect := false },
                  reconnectPending := false } .sockClose).2 =
      [ClientEvent.statusNull, ClientEvent.reconnecting] :=
  ⟨rfl, (close_reopen_event_order _ _ rfl rfl).1⟩

/-- C8 counterexample: the claim's "front is set exactly when number = -1 /
left unset when number is omitted" fails when the caller already supplied
`front = true`: with `number` omitted, the outgoing body still carries
`front = true` (the code only ever sets, never clears, `front`). -/
theorem queuePrompt_front_counterexample :
    (prepareRequestBody (some "c")
      { client_id := none, prompt := .null, extra_data := .null,
        front := some true, number := none }).front = some true ∧
    ({ client_id := none, prompt := .null, extra_data := .null,
       front := some true, number := none } : ComfyPromptRequest).number = none :=
  ⟨rfl, rfl⟩

/-- C8 (amended): `queuePrompt` sets `front := true` in the outgoing body
when `number = -1`; for any other (or absent) `number`, `front` is passed
through unchanged from the caller — in particular it stays unset when the
caller left both unset.  The other fields are the caller's, with the client
id installed. -/
theorem queuePrompt_front_semantics (clientId : Option String)
    (body : ComfyPromptRequest) :
    (body.number = some (-1) →
      (prepareRequestBody clientId body).front = some true) ∧
    (body.number ≠ some (-1) →
      (prepareRequestBody clientId body).front = body.front) ∧
    (prepareRequestBody clientId body).number = body.number ∧
    (prepareRequestBody clientId body).client_id = clientId := by
  refine ⟨?_, ?_, ?_, ?_⟩
  · intro h
    simp [prepareRequestBody, h]
  · intro h
    simp [prepareRequestBody, h]
  · by_cases h : body.number = some (-1) <;> simp [prepareRequestBody, h]
  · by_cases h : body.number = some (-1) <;> simp [prepareRequestBody, h]

/-- Witness for C8 (amended) at concrete requests. -/
theorem queuePrompt_front_semantics_witness :
    (({ client_id := none, prompt := .null, extra_data := .null,
        front := none, number := some (-1) } : ComfyPromptRequest).number =
          some (-1) →
      (prepareRequestBody (some "c")
        { client_id := none, prompt := .null, extra_data := .null,
          front := none, number := some (-1) }).front = some true) ∧
    (({ client_id := none, prompt := .null, extra_data := .null,
        front := none, number := some (-1) } : ComfyPromptRequest).number ≠
          some (-1) →
      (prepareRequestBody (some "c")
        { client_id := none, prompt := .null, extra_data := .null,
          front := none, number := some (-1) }).front = none) ∧
    (prepareRequestBody (some "c")
      { client_id := none, prompt := .null, extra_data := .null,
        front := none, number := some (-1) }).number = some (-1) ∧
    (prepareRequestBody (some "c")
      { client_id := none, prompt := .null, extra_data := .null,
        front := none, number := some (-1) }).client_id = some "c" :=
  queuePrompt_front_semantics (some "c")
    { client_id := none, prompt := .null, extra_data := .null,
      front := none, number := some (-1) }

/-- C3 counterexample: `getSystemStats` has no `.catch` — a network failure
rejects all the way to the caller instead of resolving to an error-carrying
result, refuting "every REST helper ... converts a network or parse failure
into a resolved result". -/
theorem getSystemStats_propagates :
    getSystemStats (.networkError "ECONNREFUSED") =
      .error (.str "ECONNREFUSED") := rfl

/-- C3 (amended): only the queue and history fetchers wrap network/parse
failures into resolved `{..., error}` results; the system-stats, node
definition, extension and embedding helpers propagate the rejection to the
caller; prompt submission always resolves, and on non-2xx HTTP it resolves
with the backend's structured error payload. -/
theorem rest_error_wrapping_amended :
    (∀ o : FetchOutcome, ∃ r, getQueue o = .ok r ∧
      (o.failed = true → r.error.isSome = true)) ∧
    (∀ o : FetchOutcome, ∃ r, getHistory o = .ok r ∧
      (o.failed = true → r.error.isSome = true)) ∧
    (∀ m, getSystemStats (.networkError m) = .error (.str m)) ∧
    (∀ m, getNodeDefs (.networkError m) = .error (.str m)) ∧
    (∀ m, getExtensions (.networkError m) = .error (.str m)) ∧
    (∀ m, getEmbeddings (.networkError m) = .error (.str m)) ∧
    (∀ clientId body status payload, status ≠ 200 →
      queuePrompt clientId body (.response status (.ok payload)) = .ok payload) ∧
    (∀ clientId body o, ∃ v, queuePrompt clientId body o = .ok v) := by
  refine ⟨?_, ?_, fun _ => rfl, fun _ => rfl, fun _ => rfl, fun _ => rfl, ?_, ?_⟩
  · intro o
    cases o with
    | networkError m => exact ⟨_, rfl, fun _ => rfl⟩
    | response status json =>
      cases json with
      | error m => exact ⟨_, rfl, fun _ => rfl⟩
      | ok data =>
        cases h1 : jget data "queue_running" with
        | error m =>
          refine ⟨{ running := .arr [], pending := .arr [],
                    error := some (.str m) }, ?_, ?_⟩
          · simp [getQueue, h1]
          · intro hf; rfl
        | ok r =>
          cases h2 : jget data "queue_pending" with
          | error m =>
            refine ⟨{ running := .arr [], pending := .arr [],
                      error := some (.str m) }, ?_, ?_⟩
            · simp [getQueue, h1, h2]
            · intro hf; rfl
          | ok p =>
            refine ⟨{ running := r, pending := p, error := none }, ?_, ?_⟩
            · simp [getQueue, h1, h2]
            · intro hf; simp [FetchOutcome.failed] at hf
  · intro o
    cases o with
    | networkError m => exact ⟨_, rfl, fun _ => rfl⟩
    | response status json =>
      cases json with
      | error m => exact ⟨_, rfl, fun _ => rfl⟩
      | ok data =>
        refine ⟨_, rfl, ?_⟩
        intro hf; simp [FetchOutcome.failed] at hf
  · intro clientId body status payload h
    have hb : (status != 200) = true := by simpa using h
    simp [queuePrompt, hb]
  · intro clientId body o
    cases o with
    | networkError m => exact ⟨_, rfl⟩
    | response status json =>
      by_cases hs : (status != 200) = true
      · cases json with
        | ok payload => exact ⟨payload, by simp [queuePrompt, hs]⟩
        | error m => exact ⟨.str m, by simp [queuePrompt, hs]⟩
      · cases json with
        | error m => exact ⟨.str m, by simp [queuePrompt, hs]⟩
        | ok raw =>
          cases h1 : jget raw "prompt_id" with
          | error m => exact ⟨.str m, by simp [queuePrompt, hs, h1]⟩
          | ok pid =>
            cases h2 : jget raw "number" with
            | error m => exact ⟨.str m, by simp [queuePrompt, hs, h1, h2]⟩
            | ok num =>
              exact ⟨.obj [("promptID", pid), ("number", num)],
                by simp [queuePrompt, hs, h1, h2]⟩

/-- Witness for C3 (amended): a concrete wrapped queue failure and a concrete
non-2xx prompt submission surfacing the backend payload. -/
theorem rest_error_wrapping_amended_witness :
    (∃ r, getQueue (.networkError "boom") = .ok r ∧
      ((FetchOutcome.networkError "boom").failed = true →
        r.error.isSome = true)) ∧
    ((400 : Nat) ≠ 200 →
      queuePrompt none
        { client_id := none, prompt := .null, extra_data := .null,
          front := none, number := none }
        (.response 400 (.ok (JVal.obj [("error", .str "bad prompt")]))) =
        .ok (JVal.obj [("error", .str "bad prompt")])) :=
  ⟨rest_error_wrapping_amended.1 (.networkError "boom"),
   fun h => rest_error_wrapping_amended.2.2.2.2.2.2.1 none
     { client_id := none, prompt := .null, extra_data := .null,
       front := none, number := none }
     400 (JVal.obj [("error", .str "bad prompt")]) h⟩

theorem isActiveNode_mode_eq_always {w : World} {p : Node} {tag : Option String}
    (h : isActiveNode w (some p) tag = true) : p.mode = NodeMode.ALWAYS := by
  simp only [isActiveNode] at h
  by_cases hc : (!isReroute p && !isGraphInputOutput p &&
      (tagTruthy tag && !nodeHasTag w p (tag.getD "") true)) = true
  · rw [if_pos hc] at h; cases h
  · rw [if_neg hc] at h
    by_cases hm : (p.mode != NodeMode.ALWAYS) = true
    · rw [if_pos hm] at h; cases h
    · simpa using hm

theorem locateFinal_found_active (w : World) (isTarget : Node → Option LLink → Bool)
    (tag : Option String) (st : LocState) (r : LocateResult) (p : Node)
    (h : locateFinal w isTarget tag st = .ok r) (hp : r.1 = some p) :
    isActiveNode w (some p) tag = true := by
  cases hpar : st.parent with
  | none => simp only [locateFinal, hpar] at h; cases h; simp at hp
  | some p0 =>
    simp only [locateFinal, hpar] at h
    by_cases hc : (!isActiveNode w (some p0) tag || !isTarget p0 st.currentLink ||
        st.currentLink.isNone) = true
    · rw [if_pos hc] at h; cases h; simp at hp
    · rw [if_neg hc] at h
      cases h
      simp only at hp
      cases hp
      simp only [Bool.or_eq_true, Bool.not_eq_true', not_or, Bool.not_eq_false] at hc
      exact hc.1.1

theorem locateStep_ok_found_active (w : World)
    (isTarget : Node → Option LLink → Bool) (tag : Option String)
    (st : LocState) (r : LocateResult) (p : Node)
    (h : locateStep w isTarget tag st = .inl (.ok r)) (hp : r.1 = some p) :
    isActiveNode w (some p) tag = true := by
  unfold locateStep at h
  repeat' split at h
  all_goals
    first
      | exact locateFinal_found_active _ _ _ _ _ _ (Sum.inl.inj h) hp
      | exact Except.noConfusion (Sum.inl.inj h)
      | exact Sum.noConfusion h

theorem locateUpstreamAux_found_active (w : World)
    (isTarget : Node → Option LLink → Bool) (tag : Option String) :
    ∀ (fuel : Nat) (st : LocState) (r : LocateResult) (p : Node),
      locateUpstreamAux w isTarget tag fuel st = some (.ok r) →
      r.1 = some p → isActiveNode w (some p) tag = true := by
  intro fuel
  induction fuel with
  | zero => intro st r p h hp; simp [locateUpstreamAux] at h
  | succ n ih =>
    intro st r p h hp
    unfold locateUpstreamAux at h
    cases hs : locateStep w isTarget tag st with
    | inl x =>
      rw [hs] at h
      simp only [Option.some_inj] at h
      rw [h] at hs
      exact locateStep_ok_found_active w isTarget tag st r p hs hp
    | inr st' =>
      rw [hs] at h
      exact ih st' r p h hp

/-- C10: a node whose mode is anything other than always-active (bypassed as
well as muted) is inactive; it is therefore never an active backend node
(hence excluded from the serialized output), any node `locateUpstream`
actually returns as found has mode `ALWAYS`, and the literal-value pass skips
slots fed by such a node. -/
theorem inactive_mode_excluded :
    (∀ (w : World) (n : Node) (tag : Option String),
       n.mode ≠ NodeMode.ALWAYS → isActiveNode w (some n) tag = false) ∧
    (∀ (w : World) (n : Node) (tag : Option String),
       n.mode ≠ NodeMode.ALWAYS → isActiveBackendNode w n tag = false) ∧
    (∀ (w : World) (isTarget : Node → Option LLink → Bool) (fromNode : Node)
       (i : Nat) (tag : Option String) (r : LocateResult) (p : Node),
       locateUpstream w isTarget fromNode i tag = some (.ok r) →
       r.1 = some p → p.mode = NodeMode.ALWAYS) ∧
    (∀ (w : World) (node : Node) (i : Nat) (innode : Node),
       getInputNode w node i = some innode → innode.mode ≠ NodeMode.ALWAYS →
       serializeInputSlot w node i = none) := by
  have hactive : ∀ (w : World) (n : Node) (tag : Option String),
      n.mode ≠ NodeMode.ALWAYS → isActiveNode w (some n) tag = false := by
    intro w n tag h
    simp only [isActiveNode]
    have hb : (n.mode != NodeMode.ALWAYS) = true := by simpa using h
    by_cases hc : (!isReroute n && !isGraphInputOutput n &&
        (tagTruthy tag && !nodeHasTag w n (tag.getD "") true)) = true
    · simp [hc]
    · simp [hc, hb]
  refine ⟨hactive, ?_, ?_, ?_⟩
  · intro w n tag h
    unfold isActiveBackendNode
    by_cases hbk : (!n.isBackendNode) = true
    · simp [hbk]
    · simp [hbk, hactive w n tag h]
  · intro w isTarget fromNode i tag r p h hp
    unfold locateUpstream at h
    cases hin : getInputNode w fromNode i with
    | none =>
      rw [hin] at h
      simp only [Option.some_inj, Except.ok.injEq] at h
      rw [← h] at hp
      simp at hp
    | some parent =>
      rw [hin] at h
      exact isActiveNode_mode_eq_always
        (locateUpstreamAux_found_active w isTarget tag _ _ r p h hp)
  · intro w node i innode hin hmode
    unfold serializeInputSlot
    cases hslot : node.inputs.get? i with
    | none => rfl
    | some inp =>
      have hb : (innode.mode != NodeMode.ALWAYS) = true := by simpa using hmode
      simp [hin, hb]

/-- Witness for C10: the bypassed (mode 4) nodes of `modeWorld` are inactive
and skipped, and the backend node found upstream in `directWorld` has mode
`ALWAYS`. -/
theorem inactive_mode_excluded_witness :
    isActiveNode modeWorld (some modeNodeF) none = false ∧
    isActiveBackendNode modeWorld modeNodeC none = false ∧
    ({ id := 1, graphId := 1, mode := NodeMode.ALWAYS, tags := none,
       inputs := [], kind := .backend, comfyClass := "ClsA" } : Node).mode =
      NodeMode.ALWAYS ∧
    serializeInputSlot modeWorld modeNodeB 0 = none :=
  ⟨inactive_mode_excluded.1 modeWorld modeNodeF none (by decide),
   inactive_mode_excluded.2.1 modeWorld modeNodeC none (by decide),
   inactive_mode_excluded.2.2.1 directWorld (fun n _ => n.isBackendNode)
     directNodeB 0 none exLocDirect
     { id := 1, graphId := 1, mode := NodeMode.ALWAYS, tags := none,
       inputs := [], kind := .backend, comfyClass := "ClsA" } rfl rfl,
   inactive_mode_excluded.2.2.2 modeWorld modeNodeB 0 modeNodeF rfl (by decide)⟩

theorem getLinkById_mem_allLinkIds {w : World} {gid lid : Nat} {l : LLink}
    (h : getLinkById w gid lid = some l) : l.id ∈ allLinkIds w := by
  unfold getLinkById at h
  cases hg : getGraph w gid with
  | none => rw [hg] at h; cases h
  | some g =>
    rw [hg] at h
    simp only [Option.some_bind] at h
    have hmem := List.mem_of_find?_eq_some h
    have hgmem : g ∈ w.graphs := List.mem_of_find?_eq_some hg
    unfold allLinkIds
    exact List.mem_flatMap.mpr ⟨g, hgmem, List.mem_map_of_mem _ hmem⟩

theorem getInputLink_mem_allLinkIds {w : World} {n : Node} {i : Nat} {l : LLink}
    (h : getInputLink w n i = some l) : l.id ∈ allLinkIds w := by
  unfold getInputLink at h
  cases hs : (n.inputs.get? i).bind (fun s => s.link) with
  | none => rw [hs] at h; cases h
  | some lid =>
    rw [hs] at h
    exact getLinkById_mem_allLinkIds h

theorem getUpstreamLink_link_mem {w : World} {p : Node} {cl : Option LLink}
    {res : Option Nat} {nl : LLink} {ns : Option Nat} {nn : Option Node}
    (h : getUpstreamLink w p cl = .ok (res, some nl, ns, nn)) :
    nl.id ∈ allLinkIds w := by
  unfold getUpstreamLink at h
  cases hk : p.kind with
  | subgraph inner =>
    cases cl with
    | none => simp only [hk] at h; exact Except.noConfusion h
    | some l =>
      simp only [hk] at h
      unfold followSubgraph at h
      by_cases ho : (l.origin_id != p.id) = true
      · rw [if_pos ho] at h; cases h
      · rw [if_neg ho] at h
        cases hio : getInnerGraphOutputByIndex w inner l.origin_slot with
        | none => simp only [hio] at h; exact Except.noConfusion h
        | some igo =>
          simp only [hio, Except.ok.injEq, Prod.mk.injEq] at h
          exact getInputLink_mem_allLinkIds h.2.1
  | graphInput nameInGraph =>
    cases cl with
    | none => simp only [hk] at h; exact Except.noConfusion h
    | some l =>
      simp only [hk] at h
      unfold followGraphInput at h
      by_cases ho : (l.origin_id != p.id) = true
      · rw [if_pos ho] at h; cases h
      · rw [if_neg ho] at h
        cases hsub : subgraphNodeOfGraph w p.graphId with
        | none => simp only [hsub] at h; exact Except.noConfusion h
        | some outer =>
          simp only [hsub] at h
          cases hidx : outer.inputs.findIdx? (fun s => s.name == nameInGraph) with
          | none => simp only [hidx] at h; exact Except.noConfusion h
          | some idx =>
            simp only [hidx, Except.ok.injEq, Prod.mk.injEq] at h
            exact getInputLink_mem_allLinkIds h.2.1
  | frontendCustom upstreamLinkId =>
    simp only [hk, Except.ok.injEq, Prod.mk.injEq] at h
    cases hup : upstreamLinkId with
    | none => simp only [hup, Option.none_bind] at h; simp at h
    | some lid =>
      simp only [hup, Option.some_bind] at h
      cases hg : getLinkById w p.graphId lid with
      | none => simp only [hg] at h; simp at h
      | some l =>
        simp only [hg] at h
        have hl : l = nl := by simpa using h.2.1
        rw [← hl]
        exact getLinkById_mem_allLinkIds hg
  | backend =>
    simp only [hk] at h
    by_cases hl : (p.inputs.length == 1) = true
    · rw [if_pos hl] at h
      cases hil : getInputLink w p 0 with
      | none => rw [hil] at h; simp at h
      | some link =>
        rw [hil] at h
        simp only [Except.ok.injEq, Prod.mk.injEq] at h
        have : link = nl := by simpa using h.2.1
        rw [← this]
        exact getInputLink_mem_allLinkIds hil
    · rw [if_neg hl] at h; simp at h
  | frontend =>
    simp only [hk] at h
    by_cases hl : (p.inputs.length == 1) = true
    · rw [if_pos hl] at h
      cases hil : getInputLink w p 0 with
      | none => rw [hil] at h; simp at h
      | some link =>
        rw [hil] at h
        simp only [Except.ok.injEq, Prod.mk.injEq] at h
        have : link = nl := by simpa using h.2.1
        rw [← this]
        exact getInputLink_mem_allLinkIds hil
    · rw [if_neg hl] at h; simp at h
  | reroute =>
    simp only [hk] at h
    by_cases hl : (p.inputs.length == 1) = true
    · rw [if_pos hl] at h
      cases hil : getInputLink w p 0 with
      | none => rw [hil] at h; simp at h
      | some link =>
        rw [hil] at h
        simp only [Except.ok.injEq, Prod.mk.injEq] at h
        have : link = nl := by simpa using h.2.1
        rw [← this]
        exact getInputLink_mem_allLinkIds hil
    · rw [if_neg hl] at h; simp at h
  | graphOutput nameInGraph =>
    simp only [hk] at h
    by_cases hl : (p.inputs.length == 1) = true
    · rw [if_pos hl] at h
      cases hil : getInputLink w p 0 with
      | none => rw [hil] at h; simp at h
      | some link =>
        rw [hil] at h
        simp only [Except.ok.injEq, Prod.mk.injEq] at h
        have : link = nl := by simpa using h.2.1
        rw [← this]
        exact getInputLink_mem_allLinkIds hil
    · rw [if_neg hl] at h; simp at h

theorem filter_length_mono {α : Type} (p q : α → Bool) (L : List α)
    (himp : ∀ x, p x = true → q x = true) :
    (L.filter p).length ≤ (L.filter q).length := by
  induction L with
  | nil => simp
  | cons b L ih =>
    by_cases hp : p b = true
    · rw [List.filter_cons_of_pos hp, List.filter_cons_of_pos (himp b hp)]
      simpa using ih
    · rw [List.filter_cons_of_neg (by simpa using hp)]
      by_cases hq : q b = true
      · rw [List.filter_cons_of_pos hq]
        exact Nat.le_succ_of_le ih
      · rw [List.filter_cons_of_neg (by simpa using hq)]
        exact ih

theorem filter_notin_cons_lt (L : List Nat) (a : Nat) (s : List Nat)
    (haL : a ∈ L) (has : s.contains a = false) :
    (L.filter (fun x => !((a :: s).contains x))).length <
      (L.filter (fun x => !(s.contains x))).length := by
  have hmono : ∀ (M : List Nat),
      (M.filter (fun x => !((a :: s).contains x))).length ≤
        (M.filter (fun x => !(s.contains x))).length := by
    intro M
    apply filter_length_mono
    intro x hx
    simp only [List.contains_cons, Bool.not_eq_true', Bool.or_eq_false_iff] at hx
    simp only [Bool.not_eq_true']
    exact hx.2
  have hanotin : a ∉ s := by simpa using has
  induction L with
  | nil => cases haL
  | cons b L ih =>
    rw [List.filter_cons, List.filter_cons]
    by_cases hb : b = a
    · subst hb
      rw [if_neg (by simp : ¬((!((b :: s).contains b)) = true))]
      rw [if_pos (by simpa using hanotin : (!(s.contains b)) = true)]
      simp only [List.length_cons]
      exact Nat.lt_succ_of_le (hmono L)
    · have haL' : a ∈ L := by
        cases haL with
        | head => exact absurd rfl hb
        | tail _ hmem => exact hmem
      by_cases hbs : b ∈ s
      · rw [if_neg (by simp [hbs] : ¬((!((a :: s).contains b)) = true))]
        rw [if_neg (by simp [hbs] : ¬((!(s.contains b)) = true))]
        exact ih haL'
      · rw [if_pos (by simp [hbs, hb] : (!((a :: s).contains b)) = true)]
        rw [if_pos (by simp [hbs] : (!(s.contains b)) = true)]
        simp only [List.length_cons]
        exact Nat.succ_lt_succ (ih haL')

theorem locateStep_inr_measure (w : World) (isTarget : Node → Option LLink → Bool)
    (tag : Option String) (st st' : LocState)
    (h : locateStep w isTarget tag st = .inr st') :
    locMeasure w st' < locMeasure w st := by
  unfold locateStep at h
  cases hpar : st.parent with
  | none =>
    simp only [hpar] at h
    exact Sum.noConfusion h
  | some p =>
    simp only [hpar] at h
    by_cases hg : (!(isActiveNode w (some p) tag && !isTarget p st.currentLink)) = true
    · rw [if_pos hg] at h
      exact Sum.noConfusion h
    · rw [if_neg hg] at h
      cases hup : getUpstreamLink w p st.currentLink with
      | error e =>
        simp only [hup] at h
        exact Sum.noConfusion h
      | ok q =>
        obtain ⟨ng, nlink, ns, nn⟩ := q
        cases nlink with
        | none =>
          simp only [hup] at h
          exact Sum.noConfusion h
        | some nl =>
          by_cases hseen : (st.seen.contains nl.id) = true
          · simp only [hup, hseen, Bool.not_true] at h
            simp only [Bool.false_eq_true, if_false] at h
            injection h with h2
            subst h2
            simp only [locMeasure, hpar]
            omega
          · have hseenf : st.seen.contains nl.id = false := by simpa using hseen
            have hlidmem : nl.id ∈ allLinkIds w := getUpstreamLink_link_mem hup
            have hlt := filter_notin_cons_lt (allLinkIds w) nl.id st.seen
              hlidmem hseenf
            cases ng with
            | none =>
              simp only [hup, hseenf, Bool.not_false] at h
              simp only [if_true] at h
              exact Sum.noConfusion h
            | some g =>
              have hA : isActiveNode w (some p) tag = true := by
                have hg2 : (isActiveNode w (some p) tag &&
                    !isTarget p st.currentLink) = true := by
                  cases hand : (isActiveNode w (some p) tag &&
                      !isTarget p st.currentLink) with
                  | true => rfl
                  | false => exact absurd (by simp [hand]) hg
                simp only [Bool.and_eq_true] at hg2
                exact hg2.1
              simp only [hup, hseenf, Bool.not_false, if_true, hA,
                Bool.not_true] at h
              simp only [Bool.false_eq_true, if_false] at h
              injection h with h2
              subst h2
              simp only [locMeasure, hpar]
              cases hnp : getNodeById w g nl.origin_id with
              | none => simp only; omega
              | some np => simp only; omega

theorem locateUpstreamAux_stable (w : World) (isTarget : Node → Option LLink → Bool)
    (tag : Option String) :
    ∀ (f1 f2 : Nat) (st : LocState),
      locMeasure w st < f1 → locMeasure w st < f2 →
      locateUpstreamAux w isTarget tag f1 st =
        locateUpstreamAux w isTarget tag f2 st ∧
      (locateUpstreamAux w isTarget tag f1 st).isSome = true := by
  intro f1
  induction f1 using Nat.strong_induction_on with
  | _ f1 ih =>
    intro f2 st h1 h2
    cases f1 with
    | zero => omega
    | succ f1' =>
      cases f2 with
      | zero => omega
      | succ f2' =>
        unfold locateUpstreamAux
        cases hs : locateStep w isTarget tag st with
        | inl r => simp [hs]
        | inr st' =>
          simp only [hs]
          have hm := locateStep_inr_measure w isTarget tag st st' hs
          exact ih f1' (Nat.lt_succ_self f1') f2' st' (by omega) (by omega)

theorem initial_locMeasure_lt_locBound (w : World) (parent : Node)
    (link : Option LLink) (i : Nat) (fromNode : Node) :
    locMeasure w { parent := some parent, currentLink := link,
                   currentInputSlot := some i, currentNode := some fromNode,
                   seen := [] } < locBound w := by
  simp only [locMeasure, locBound]
  have hfull : ((allLinkIds w).filter
      (fun lid => !(([] : List Nat).contains lid))).length =
      (allLinkIds w).length := by
    have : ((allLinkIds w).filter
        (fun lid => !(([] : List Nat).contains lid))) = allLinkIds w := by
      apply List.filter_eq_self.mpr
      intro x _
      rfl
    rw [this]
  omega

/-- C4: for every graph (in particular graphs whose links form a cycle among
frontend-only nodes) `UpstreamNodeLocator.locateUpstream` terminates within
the fixed fuel bound `locBound` (number of link ids plus two): the result at
that bound exists and any larger fuel gives the same result.  Each traversed
link id is recorded in the seen set; a second encounter of a link id makes
the loop clear `parent`, and the next guard check then returns a null
found-node result. -/
theorem locateUpstream_terminates (w : World)
    (isTarget : Node → Option LLink → Bool) (fromNode : Node) (inputIndex : Nat)
    (tag : Option String) (hw : parentsAcyclic w = true) :
    (locateUpstream w isTarget fromNode inputIndex tag).isSome = true ∧
    (∀ fuel, locBound w ≤ fuel →
      locateUpstreamWithFuel w isTarget fromNode inputIndex tag fuel =
        locateUpstream w isTarget fromNode inputIndex tag) ∧
    (∀ (st : LocState) (p : Node) (ng : Option Nat) (nl : LLink)
       (ns : Option Nat) (nn : Option Node),
      st.parent = some p →
      (isActiveNode w (some p) tag && !isTarget p st.currentLink) = true →
      getUpstreamLink w p st.currentLink = .ok (ng, some nl, ns, nn) →
      st.seen.contains nl.id = true →
      locateStep w isTarget tag st =
        .inr { parent := none, currentLink := st.currentLink,
               currentInputSlot := ns, currentNode := nn, seen := st.seen }) ∧
    (∀ st : LocState, st.parent = none →
      locateStep w isTarget tag st =
        .inl (.ok (none, st.currentLink, st.currentInputSlot,
                   st.currentNode))) := by
  refine ⟨?_, ?_, ?_, ?_⟩
  · unfold locateUpstream
    cases hin : getInputNode w fromNode inputIndex with
    | none => rfl
    | some parent =>
      exact (locateUpstreamAux_stable w isTarget tag (locBound w) (locBound w) _
        (initial_locMeasure_lt_locBound w parent _ inputIndex fromNode)
        (initial_locMeasure_lt_locBound w parent _ inputIndex fromNode)).2
  · intro fuel hfuel
    unfold locateUpstreamWithFuel locateUpstream
    cases hin : getInputNode w fromNode inputIndex with
    | none => rfl
    | some parent =>
      exact (locateUpstreamAux_stable w isTarget tag fuel (locBound w) _
        (by have := initial_locMeasure_lt_locBound w parent
              (getInputLink w fromNode inputIndex) inputIndex fromNode
            omega)
        (initial_locMeasure_lt_locBound w parent _ inputIndex fromNode)).1
  · intro st p ng nl ns nn hpar hguard hup hseen
    unfold locateStep
    simp only [hpar, hguard, hup, hseen, Bool.not_true]
    simp only [Bool.false_eq_true, if_false]
  · intro st hpar
    unfold locateStep locateFinal
    simp only [hpar]

/-- Witness for C4 on the concrete link-cycle graph. -/
theorem locateUpstream_terminates_witness :
    parentsAcyclic cycleWorld = true ∧
    (locateUpstream cycleWorld (fun n _ => n.isBackendNode)
      cycleNodeB 0 none).isSome = true :=
  ⟨rfl, (locateUpstream_terminates cycleWorld (fun n _ => n.isBackendNode)
    cycleNodeB 0 none rfl).1⟩

theorem isActiveNode_tag_blocked {w : World} {n : Node} {s : String}
    (hr : isReroute n = false) (hgio : isGraphInputOutput n = false)
    (hsb : (s != "") = true) (ht : nodeHasTag w n s true = false) :
    isActiveNode w (some n) (some s) = false := by
  have h3 : tagTruthy (some s) = true := hsb
  simp [isActiveNode, hr, hgio, h3, ht]

theorem isActiveBackendNode_of_inactive {w : World} {n : Node}
    {tag : Option String} (h : isActiveNode w (some n) tag = false) :
    isActiveBackendNode w n tag = false := by
  by_cases hbk : (!n.isBackendNode) = true
  · simp [isActiveBackendNode, hbk]
  · simp [isActiveBackendNode, hbk, h]

theorem serialize_map_output (w : World) (gid : Nat) (tag : Option String) :
    (serialize w gid tag).map (fun sp => sp.output) =
      (serializeOutput w gid tag).map prunedOutput := by
  unfold serialize
  cases h : serializeOutput w gid tag with
  | error e => simp only [h]; rfl
  | ok out => simp only [h]; rfl

theorem chain_all_inactive (a b : Option (List String)) (s : String)
    (hsb : (s != "") = true) :
    serializeOutput (chainWorld a b NodeMode.ALWAYS) 1 (some s) = .ok [] := by
  have hA : isActiveBackendNode (chainWorld a b NodeMode.ALWAYS) chainNodeA
      (some s) = false :=
    isActiveBackendNode_of_inactive (isActiveNode_tag_blocked rfl rfl hsb rfl)
  have hB : isActiveBackendNode (chainWorld a b NodeMode.ALWAYS) chainNodeB
      (some s) = false :=
    isActiveBackendNode_of_inactive (isActiveNode_tag_blocked rfl rfl hsb rfl)
  have hR1 : isActiveBackendNode (chainWorld a b NodeMode.ALWAYS)
      (chainNodeR1 a) (some s) = false := rfl
  have hR2 : isActiveBackendNode (chainWorld a b NodeMode.ALWAYS)
      (chainNodeR2 b NodeMode.ALWAYS) (some s) = false := rfl
  have hnodes : allNodesRecursive (chainWorld a b NodeMode.ALWAYS)
      ((chainWorld a b NodeMode.ALWAYS).graphs.length + 1) 1 =
      [chainNodeA, chainNodeR1 a, chainNodeR2 b NodeMode.ALWAYS, chainNodeB] := rfl
  unfold serializeOutput
  rw [hnodes]
  simp [List.foldlM_cons, List.foldlM_nil, hA, hB, hR1, hR2,
    Bind.bind, Except.bind, pure, Except.pure]

theorem chain_eval (t : Option String) (a b : Option (List String)) :
    serializeOutput (chainWorld a b NodeMode.ALWAYS) 1 t =
      serializeOutput (chainWorld none none NodeMode.ALWAYS) 1 t := by
  cases t with
  | none => rfl
  | some s =>
    rcases eq_or_ne s "" with rfl | hs
    · rfl
    · have hsb : (s != "") = true := by simpa using hs
      rw [chain_all_inactive a b s hsb, chain_all_inactive none none s hsb]

/-- C6: tag filtering never deactivates reroutes — for the chain
`A(backend) -> Reroute -> Reroute -> B(backend)`, serialization under any tag
filter produces the same output mapping (in particular the same
`["1", 0]` link entry for `B`) regardless of which tags sit on the two
reroutes; a non-`ALWAYS` mode on a reroute, however, still deactivates it and
drops `B`'s resolved input. -/
theorem reroute_tag_transparency (t : Option String)
    (rt1 rt2 rt1' rt2' : Option (List String)) :
    (serialize (chainWorld rt1 rt2 NodeMode.ALWAYS) 1 t).map
        (fun sp => sp.output) =
      (serialize (chainWorld rt1' rt2' NodeMode.ALWAYS) 1 t).map
        (fun sp => sp.output) ∧
    serialize (chainWorld none none NodeMode.NEVER) 1 none = .ok exPromptMuted ∧
    objGet exPromptMuted.output "4" = some exEntryMutedB ∧
    objGet exEntryMutedB.inputs "in" = none := by
  refine ⟨?_, rfl, rfl, rfl⟩
  rw [serialize_map_output, serialize_map_output, chain_eval t rt1 rt2,
      chain_eval t rt1' rt2']

theorem nodeHasTagAux_chain (w : World) (t : String) :
    ∀ (f gid : Nat),
      nodeHasTagAux w t true f (subgraphNodeOfGraph w gid) =
        (parentSubgraphNodesAux w f gid).any (nodeSelfHasTag t) := by
  intro f
  induction f with
  | zero => intro gid; rfl
  | succ f ih =>
    intro gid
    cases hsub : subgraphNodeOfGraph w gid with
    | none => simp [nodeHasTagAux, parentSubgraphNodesAux, hsub]
    | some p =>
      simp only [parentSubgraphNodesAux, hsub, List.any_cons]
      have harm : nodeHasTagAux w t true (f + 1) (some p) =
          (if nodeSelfHasTag t p then true
           else nodeHasTagAux w t true f (subgraphNodeOfGraph w p.graphId)) := rfl
      rw [harm]
      by_cases hself : nodeSelfHasTag t p = true
      · simp [hself]
      · simp only [Bool.not_eq_true] at hself
        simp [hself, ih p.graphId]

theorem nodeHasTag_chain (w : World) (n : Node) (t : String) :
    nodeHasTag w n t true =
      (nodeSelfHasTag t n ||
        (parentSubgraphNodesAux w w.graphs.length n.graphId).any
          (nodeSelfHasTag t)) := by
  unfold nodeHasTag
  have harm : nodeHasTagAux w t true (w.graphs.length + 1) (some n) =
      (if nodeSelfHasTag t n then true
       else nodeHasTagAux w t true w.graphs.length
         (subgraphNodeOfGraph w n.graphId)) := rfl
  rw [harm, nodeHasTagAux_chain w t w.graphs.length n.graphId]
  by_cases hself : nodeSelfHasTag t n = true
  · simp [hself]
  · simp only [Bool.not_eq_true] at hself
    simp [hself]

theorem parentSubgraphNodesAux_stable (w : World) :
    ∀ (f gid : Nat), climbOk w f gid = true →
      ∀ f2, f ≤ f2 →
        parentSubgraphNodesAux w f2 gid = parentSubgraphNodesAux w f gid := by
  intro f
  induction f with
  | zero => intro gid h; exact absurd h (by simp [climbOk])
  | succ f ih =>
    intro gid h f2 hle
    cases f2 with
    | zero => omega
    | succ f2' =>
      unfold climbOk at h
      cases hsub : subgraphNodeOfGraph w gid with
      | none =>
        unfold parentSubgraphNodesAux
        simp [hsub]
      | some p =>
        rw [hsub] at h
        unfold parentSubgraphNodesAux
        simp only [hsub]
        rw [ih p.graphId h f2' (by omega)]

theorem backend_not_reroute {n : Node} (h : n.isBackendNode = true) :
    isReroute n = false ∧ isGraphInputOutput n = false := by
  cases hk : n.kind <;>
    simp [Node.isBackendNode, hk] at h ⊢ <;>
    simp [isReroute, isGraphInputOutput, hk]

theorem isActiveNode_of_tagged {w : World} {n : Node} {t : String}
    (hr : isReroute n = false) (hgio : isGraphInputOutput n = false)
    (hm : n.mode = NodeMode.ALWAYS) (ht : nodeHasTag w n t true = true) :
    isActiveNode w (some n) (some t) = true := by
  simp [isActiveNode, hr, hgio, ht, hm]

theorem graphIsSubgraph_of_subgraphNode {w : World} {gid : Nat} {p : Node}
    (h : subgraphNodeOfGraph w gid = some p) : graphIsSubgraph w gid = true := by
  unfold subgraphNodeOfGraph at h
  unfold graphIsSubgraph
  cases hg : getGraph w gid with
  | none => rw [hg] at h; cases h
  | some g =>
    rw [hg] at h
    simp only [Option.some_bind] at h
    cases hr : g.subgraphNodeRef with
    | none => rw [hr] at h; cases h
    | some r => simp [hr]

theorem chain_all_active (w : World) (t : String) :
    ∀ (f gid : Nat), f ≤ w.graphs.length → climbOk w f gid = true →
      (∀ p ∈ parentSubgraphNodesAux w f gid,
        p.mode = NodeMode.ALWAYS ∧ isReroute p = false ∧
          isGraphInputOutput p = false) →
      ∀ pout, (parentSubgraphNodesAux w f gid).getLast? = some pout →
        nodeSelfHasTag t pout = true →
        ∀ p ∈ parentSubgraphNodesAux w f gid,
          isActiveNode w (some p) (some t) = true := by
  intro f
  induction f with
  | zero =>
    intro gid _ h
    exact absurd h (by simp [climbOk])
  | succ f ih =>
    intro gid hle h hprops pout hlast htag p hp
    cases hsub : subgraphNodeOfGraph w gid with
    | none =>
      simp [parentSubgraphNodesAux, hsub] at hp
    | some q =>
      simp only [climbOk, hsub] at h
      have hchain : parentSubgraphNodesAux w (f + 1) gid =
          q :: parentSubgraphNodesAux w f q.graphId := by
        simp only [parentSubgraphNodesAux, hsub]
      rw [hchain] at hprops hlast hp
      have hqprops := hprops q (List.mem_cons_self q _)
      have hqash : nodeHasTag w q t true = true := by
        rw [nodeHasTag_chain]
        have hstab : parentSubgraphNodesAux w w.graphs.length q.graphId =
            parentSubgraphNodesAux w f q.graphId :=
          parentSubgraphNodesAux_stable w f q.graphId h w.graphs.length
            (by omega)
        rw [hstab]
        cases hrest : parentSubgraphNodesAux w f q.graphId with
        | nil =>
          rw [hrest] at hlast
          have hqp : q = pout := by simpa using hlast
          rw [hqp]
          simp [htag]
        | cons r rs =>
          rw [hrest] at hlast
          have hlast' : (r :: rs).getLast? = some pout := hlast
          have hmem : pout ∈ r :: rs := List.mem_of_mem_getLast? hlast'
          have hany : (r :: rs).any (nodeSelfHasTag t) = true :=
            List.any_eq_true.mpr ⟨pout, hmem, htag⟩
          simp [hany]
      rcases List.mem_cons.mp hp with rfl | hptail
      · exact isActiveNode_of_tagged hqprops.2.1 hqprops.2.2 hqprops.1 hqash
      · cases hrest : parentSubgraphNodesAux w f q.graphId with
        | nil =>
          rw [hrest] at hptail
          cases hptail
        | cons r rs =>
          rw [hrest] at hlast
          have hlast' : (r :: rs).getLast? = some pout := hlast
          apply ih q.graphId (by omega) h ?_ pout ?_ htag p ?_
          · intro x hx
            exact hprops x (List.mem_cons_of_mem q hx)
          · rw [hrest]
            exact hlast'
          · exact hptail

/-- C5 counterexample: a backend node nested two subgraph levels deep, with
the tag carried only by the inner (non-outermost) ancestor subgraph node.
Some ancestor carries the tag, the node itself and every ancestor have mode
`ALWAYS`, yet the node is not an active backend node and serialization under
that tag produces an empty output — refuting "included whenever some
ancestor subgraph node carries it". -/
theorem tag_inheritance_counterexample :
    nestedNodeN.isBackendNode = true ∧
    nodeSelfHasTag "t" nestedNodeN = false ∧
    nestedNodeN.mode = NodeMode.ALWAYS ∧
    (parentSubgraphNodes (nestedWorld (some ["t"]) none) 0).any
      (nodeSelfHasTag "t") = true ∧
    (∀ p ∈ parentSubgraphNodes (nestedWorld (some ["t"]) none) 0,
      p.mode = NodeMode.ALWAYS) ∧
    isActiveBackendNode (nestedWorld (some ["t"]) none) nestedNodeN
      (some "t") = false ∧
    serialize (nestedWorld (some ["t"]) none) 2 (some "t") =
      .ok { workflow := getGraph (nestedWorld (some ["t"]) none) 2,
            output := [] } := by
  refine ⟨rfl, rfl, rfl, rfl, ?_, rfl, rfl⟩
  intro p hp
  rw [show parentSubgraphNodes (nestedWorld (some ["t"]) none) 0 =
      [nestedS1 (some ["t"]), nestedS2 none] from rfl] at hp
  rcases (by simpa using hp : p = nestedS1 (some ["t"]) ∨ p = nestedS2 none)
    with rfl | rfl
  · rfl
  · rfl

/-- C5 (amended): under a tag filter, a backend node that does not itself
carry the tag is included exactly when every ancestor subgraph node passes
its own tag check — for a chain of always-active subgraph ancestors this
means the outermost ancestor must carry the tag (tags on non-outermost
ancestors do not suffice, since the outer ancestor then fails its own
check).  Conversely a backend node is excluded whenever any ancestor
subgraph node is inactive (untagged under the filter, or muted), even if the
node itself passes the tag and mode checks. -/
theorem tag_inheritance_amended :
    (∀ (w : World) (n : Node) (t : String) (pout : Node),
      climbOk w w.graphs.length n.graphId = true →
      n.isBackendNode = true →
      n.mode = NodeMode.ALWAYS →
      (∀ p ∈ parentSubgraphNodes w n.graphId,
        p.mode = NodeMode.ALWAYS ∧ isReroute p = false ∧
          isGraphInputOutput p = false) →
      (parentSubgraphNodes w n.graphId).getLast? = some pout →
      nodeSelfHasTag t pout = true →
      isActiveBackendNode w n (some t) = true) ∧
    (∀ (w : World) (n : Node) (tag : Option String) (p : Node),
      p ∈ parentSubgraphNodes w n.graphId →
      isActiveNode w (some p) tag = false →
      isActiveBackendNode w n tag = false) := by
  constructor
  · intro w n t pout hclimb hbk hmode hprops hlast htag
    have hstab : parentSubgraphNodes w n.graphId =
        parentSubgraphNodesAux w w.graphs.length n.graphId := by
      unfold parentSubgraphNodes
      exact parentSubgraphNodesAux_stable w w.graphs.length n.graphId hclimb
        (w.graphs.length + 1) (by omega)
    have hne : parentSubgraphNodes w n.graphId ≠ [] := by
      intro hemp
      rw [hemp] at hlast
      cases hlast
    have hsub : ∃ q, subgraphNodeOfGraph w n.graphId = some q := by
      cases hs : subgraphNodeOfGraph w n.graphId with
      | some q => exact ⟨q, rfl⟩
      | none =>
        exact absurd (by simp [parentSubgraphNodes, parentSubgraphNodesAux, hs])
          hne
    obtain ⟨q, hsubq⟩ := hsub
    have hgate := graphIsSubgraph_of_subgraphNode hsubq
    have hall : ∀ p ∈ parentSubgraphNodes w n.graphId,
        isActiveNode w (some p) (some t) = true := by
      rw [hstab] at hprops hlast ⊢
      exact chain_all_active w t w.graphs.length n.graphId (Nat.le_refl _)
        hclimb hprops pout hlast htag
    have hpoutmem : pout ∈ parentSubgraphNodes w n.graphId :=
      List.mem_of_mem_getLast? hlast
    have hntag : nodeHasTag w n t true = true := by
      rw [nodeHasTag_chain]
      have hany : (parentSubgraphNodesAux w w.graphs.length n.graphId).any
          (nodeSelfHasTag t) = true :=
        List.any_eq_true.mpr ⟨pout, by rw [← hstab]; exact hpoutmem, htag⟩
      simp [hany]
    have hnr := backend_not_reroute hbk
    have hact := isActiveNode_of_tagged hnr.1 hnr.2 hmode hntag
    have hanyf : ((parentSubgraphNodes w n.graphId).any
        (fun p => !isActiveNode w (some p) (some t))) = false := by
      cases hany : (parentSubgraphNodes w n.graphId).any
          (fun p => !isActiveNode w (some p) (some t)) with
      | false => rfl
      | true =>
        exfalso
        obtain ⟨x, hx, hnx⟩ := List.any_eq_true.mp hany
        rw [hall x hx] at hnx
        simp at hnx
    simp [isActiveBackendNode, hbk, hact, hgate, hanyf]
  · intro w n tag p hp hinact
    by_cases hbk : (!n.isBackendNode) = true
    · simp [isActiveBackendNode, hbk]
    · by_cases hact : isActiveNode w (some n) tag = true
      · have hsub : ∃ q, subgraphNodeOfGraph w n.graphId = some q := by
          cases hs : subgraphNodeOfGraph w n.graphId with
          | some q => exact ⟨q, rfl⟩
          | none =>
            exfalso
            simp [parentSubgraphNodes, parentSubgraphNodesAux, hs] at hp
        obtain ⟨q, hsubq⟩ := hsub
        have hgate := graphIsSubgraph_of_subgraphNode hsubq
        have hany : ((parentSubgraphNodes w n.graphId).any
            (fun q2 => !isActiveNode w (some q2) tag)) = true :=
          List.any_eq_true.mpr ⟨p, hp, by simp [hinact]⟩
        simp [isActiveBackendNode, hbk, hact, hgate, hany]
      · have hact' : isActiveNode w (some n) tag = false := by
          simpa using hact
        simp [isActiveBackendNode, hbk, hact']

/-- Witness for C5 (amended): with the tag on the outermost ancestor the
nested backend node is included; with an untagged (hence inactive under the
filter) outer ancestor it is excluded. -/
theorem tag_inheritance_amended_witness :
    isActiveBackendNode (nestedWorld none (some ["t"])) nestedNodeN
      (some "t") = true ∧
    isActiveBackendNode (nestedWorld (some ["t"]) none) nestedNodeN
      (some "t") = false :=
  ⟨tag_inheritance_amended.1 (nestedWorld none (some ["t"])) nestedNodeN "t"
    (nestedS2 (some ["t"])) rfl rfl rfl
    (by
      intro p hp
      rw [show parentSubgraphNodes (nestedWorld none (some ["t"]))
          nestedNodeN.graphId =
          [nestedS1 none, nestedS2 (some ["t"])] from rfl] at hp
      rcases (by simpa using hp :
          p = nestedS1 none ∨ p = nestedS2 (some ["t"])) with rfl | rfl
      · exact ⟨rfl, rfl, rfl⟩
      · exact ⟨rfl, rfl, rfl⟩)
    rfl rfl,
   tag_inheritance_amended.2 (nestedWorld (some ["t"]) none) nestedNodeN
    (some "t") (nestedS2 none)
    (by
      rw [show parentSubgraphNodes (nestedWorld (some ["t"]) none)
          nestedNodeN.graphId =
          [nestedS1 (some ["t"]), nestedS2 none] from rfl]
      exact List.mem_cons_of_mem _ (List.mem_cons_self _ _))
    rfl⟩
